import Mathlib

/-!
Verification development for the data-cleaner backend.

Strings from the TypeScript source are modelled as lists of characters
(abbrev Str). The JavaScript regular-expression operations used by the
SQL sanitizer are translated into explicit recursive functions over
Str. External collaborators (the generative model, the database) are
modelled as oracles passed in as arguments.
-/

abbrev Str := List Char

/-- Convert a Lean string literal to the character-list model. -/
def str (s : String) : Str := s.data

/-- JavaScript word character class, the regex class backslash-w:
letters, digits and underscore (ASCII), expressed over code points. -/
def isWordChar (c : Char) : Bool :=
  (65 ≤ c.toNat && c.toNat ≤ 90) || (97 ≤ c.toNat && c.toNat ≤ 122) ||
  (48 ≤ c.toNat && c.toNat ≤ 57) || c.toNat == 95

/-- JavaScript whitespace class backslash-s, restricted to the ASCII
whitespace characters (space, tab, line feed, carriage return,
vertical tab, form feed), expressed over code points. -/
def isSpaceJS (c : Char) : Bool :=
  c.toNat == 32 || c.toNat == 9 || c.toNat == 10 || c.toNat == 13 ||
  c.toNat == 11 || c.toNat == 12

/-- Case-insensitive prefix match, modelling a regex literal with the i
flag tested at a fixed position (ASCII case folding). -/
def matchCI : Str → Str → Bool
  | [], _ => true
  | _ :: _, [] => false
  | k :: ks, c :: cs => (k.toLower == c.toLower) && matchCI ks cs

/-- A word boundary holds before the current position when the previous
character (if any) is not a word character. Sound for patterns that
begin with a word character, which all keywords here do. -/
def boundaryBefore : Option Char → Bool
  | none => true
  | some p => !isWordChar p

/-- The keyword matches at the head of s and the character following the
match (if any) is not a word character. Sound for keywords that end in
a word character. -/
def wordAt (kw : Str) (s : Str) : Bool :=
  matchCI kw s &&
    (match s.drop kw.length with
     | [] => true
     | c :: _ => !isWordChar c)

/-- Scanner for the regex test of word-boundary-delimited keyword kw with
the i flag: tries every position left to right, tracking the previous
character for the boundary check. -/
def containsWordCIGo (kw : Str) : Option Char → Str → Bool
  | _, [] => false
  | prev, c :: cs =>
    (boundaryBefore prev && wordAt kw (c :: cs)) || containsWordCIGo kw (some c) cs

/-- Whole-word case-insensitive containment test, the embedding of
new RegExp of a word-boundary-wrapped keyword with the i flag. -/
def containsWordCI (kw : Str) (s : Str) : Bool := containsWordCIGo kw none s

/-- Case-insensitive starts-with, the embedding of a caret-anchored
regex literal with the i flag. -/
def startsWithCI (p : Str) (s : Str) : Bool := matchCI p s

/-- JavaScript String.prototype.trim (ASCII whitespace model). -/
def trimJS (s : Str) : Str :=
  ((s.dropWhile isSpaceJS).reverse.dropWhile isSpaceJS).reverse

/-- Helper for the non-greedy block-comment regex: find the first
star-slash closer and return the suffix after it. -/
def findClose : Str → Option Str
  | [] => none
  | c :: cs =>
    match c, cs with
    | '*', '/' :: rest => some rest
    | _, _ => findClose cs

theorem findClose_length : ∀ s r, findClose s = some r → r.length + 2 ≤ s.length := by
  intro s
  induction s with
  | nil => intro r h; simp [findClose] at h
  | cons c cs ih =>
    intro r h
    rw [findClose.eq_def] at h
    simp only at h
    split at h
    · injection h with h; subst h; simp
    · have := ih r h
      simp only [List.length_cons]
      omega

/-- Fueled scanner for the global replacement of non-greedy slash-star
block comments by the empty string: each opener is removed together
with the text up to the first closer; an unclosed opener is left in
place (no later opener can match either, since no closer exists after
it). The fuel, instantiated with the length of the string, keeps the
recursion structural. -/
def stripBlockGo : Nat → Str → Str
  | 0, s => s
  | _, [] => []
  | fuel + 1, '/' :: '*' :: rest =>
    (match findClose rest with
     | some rest2 => stripBlockGo fuel rest2
     | none => '/' :: '*' :: rest)
  | fuel + 1, c :: cs => c :: stripBlockGo fuel cs

def stripBlock (s : Str) : Str := stripBlockGo s.length s

/-- Drop characters up to (excluding) the next line terminator,
modelling the dot-star part of the line-comment regex. -/
def dropLine : Str → Str
  | [] => []
  | c :: cs =>
    if c = Char.ofNat 10 || c = Char.ofNat 13 then c :: cs else dropLine cs

theorem dropLine_length_le : ∀ s : Str, (dropLine s).length ≤ s.length := by
  intro s
  induction s with
  | nil => simp [dropLine]
  | cons c cs ih =>
    simp only [dropLine]
    split
    · simp
    · simp; omega

/-- Fueled scanner for the global replacement of dash-dash line
comments by the empty string. The fuel, instantiated with the length
of the string, keeps the recursion structural. -/
def stripLineGo : Nat → Str → Str
  | 0, s => s
  | _, [] => []
  | fuel + 1, '-' :: '-' :: rest => stripLineGo fuel (dropLine rest)
  | fuel + 1, c :: cs => c :: stripLineGo fuel cs

def stripLine (s : Str) : Str := stripLineGo s.length s

/-- Collapse every whitespace run to a single space, the global
replacement of one-or-more whitespace by a space. The boolean records
whether the previous character was part of a whitespace run. -/
def collapseGo : Bool → Str → Str
  | _, [] => []
  | prevSp, c :: cs =>
    if isSpaceJS c then
      if prevSp then collapseGo true cs else ' ' :: collapseGo true cs
    else c :: collapseGo false cs

def collapseWs (s : Str) : Str := collapseGo false s

/-- Numeric value of a digit string, the embedding of parseInt with
radix 10 on a match of one-or-more digits. -/
def digitsToNat (ds : Str) : Nat :=
  ds.foldl (fun a c => 10 * a + (c.toNat - 48)) 0

/-- Try to match, at the head of s, the tail of the limit regex:
the literal limit (case-insensitive), one or more whitespace
characters, then one or more digits. Returns the numeric value and the
remainder after the digits. -/
def limitAt (s : Str) : Option (Nat × Str) :=
  if matchCI (str "limit") s then
    let r1 := s.drop 5
    let sp := r1.takeWhile isSpaceJS
    if sp.isEmpty then none
    else
      let r2 := r1.dropWhile isSpaceJS
      let ds := r2.takeWhile Char.isDigit
      if ds.isEmpty then none
      else some (digitsToNat ds, r2.drop ds.length)
  else none

/-- Left-to-right scan for the first match of the word-bounded limit
regex. Returns the text before the match, the numeric value, and the
text after the matched digits. -/
def scanLimit : Option Char → Str → Str → Option (Str × Nat × Str)
  | _, _, [] => none
  | prev, acc, c :: cs =>
    match (if boundaryBefore prev then limitAt (c :: cs) else none) with
    | some (v, rest) => some (acc.reverse, v, rest)
    | none => scanLimit (some c) (c :: acc) cs

/-- Detected literal numeric limit value, if any (the capture group of
the limit regex). -/
def findLimitVal (s : Str) : Option Nat :=
  (scanLimit none [] s).map (fun x => x.2.1)

/-- Replacement of the first match of the limit regex by the
placeholder text LIMIT-questionmark. -/
def replaceLimit (s : Str) : Str :=
  match scanLimit none [] s with
  | some (pre, _, rest) => pre ++ str "LIMIT ?" ++ rest
  | none => s

deriving instance DecidableEq for Except

set_option maxRecDepth 4000

/-! ## Query plan model (NaturalLanguageQueryAIService, entities and DMS variants) -/

/-- Single-quote character, kept out of string literals. -/
def squote : Char := Char.ofNat 39

/-- A model response after JSON parsing. A field is none when it is
absent or not of the type the validator tests for. The sql field is
assumed to be a string when present; some with the empty list models
an empty (falsy) sql string. -/
structure ParsedPlan where
  sql : Option Str
  explanation : Option Str
  allowsLimit : Option Bool
  successStatus : Option Bool
  shouldRetry : Option Bool
deriving Repr, DecidableEq

/-- The QueryPlan record returned to callers. -/
structure QueryPlan where
  sql : Str
  explanation : Str
  allowsLimit : Bool
  limit : Nat
  successStatus : Bool
  shouldRetry : Bool
deriving Repr, DecidableEq

/-- Forbidden keyword list of the entities variant. -/
def forbiddenEnt : List Str :=
  [str "UPDATE", str "DELETE", str "INSERT", str "DROP", str "ALTER",
   str "CREATE", str "TRUNCATE", str "RENAME", str "GRANT", str "REVOKE"]

/-- Forbidden keyword list of the DMS variant (three keywords shorter). -/
def forbiddenDMS : List Str :=
  [str "UPDATE", str "DELETE", str "INSERT", str "DROP", str "ALTER",
   str "CREATE", str "TRUNCATE"]

/-- The fixed sql text of internally built fallback plans. -/
def fallbackSql : Str :=
  str "SELECT " ++ [squote] ++ str "No valid query could be generated." ++ [squote]
    ++ str " AS message"

/-- The points at which the two service variants differ textually. -/
structure SanitizeCfg where
  forbidden : List Str
  kwErrPrefix : Str
  selectErr : Str
  replaceOnAnyLimit : Bool
  fallbackSuffix : Str
deriving Repr

/-- Entities variant configuration. The limit replacement runs only
under the dead guard limitValue greater than 100. -/
def entCfg : SanitizeCfg :=
  { forbidden := forbiddenEnt
  , kwErrPrefix := str "Forbidden keyword detected: "
  , selectErr := str "Only SELECT queries are allowed"
  , replaceOnAnyLimit := false
  , fallbackSuffix := str "Please ask about entities, people, or addresses." }

/-- DMS variant configuration. Its guard also fires whenever a literal
limit was matched. -/
def dmsCfg : SanitizeCfg :=
  { forbidden := forbiddenDMS
  , kwErrPrefix := str "Forbidden keyword: "
  , selectErr := str "Only SELECT queries allowed"
  , replaceOnAnyLimit := true
  , fallbackSuffix := str "Please ask about tickets, users, deals, or notes." }

/-- buildFallbackQueryPlan of either variant. -/
def buildFallbackQueryPlan (cfg : SanitizeCfg) (reason : Str) (shouldRetry : Bool) :
    QueryPlan :=
  { sql := fallbackSql
  , explanation := str "I cannot perform that action. " ++ reason ++ str " "
      ++ cfg.fallbackSuffix
  , allowsLimit := false
  , limit := 0
  , successStatus := false
  , shouldRetry := shouldRetry }

/-- The sanitization core applied to a raw sql string after the field
checks and after the declared-failure early return: trim, forbidden
keyword scan, SELECT prefix check, comment stripping, whitespace
collapse, and the literal-limit step. Mirrors the statement order of
validateAndSanitize. -/
def sanitizeSql (cfg : SanitizeCfg) (raw : Str) : Except Str (Str × Nat) :=
  let sql := trimJS raw
  match cfg.forbidden.find? (fun kw => containsWordCI kw sql) with
  | some kw => .error (cfg.kwErrPrefix ++ kw)
  | none =>
    if !startsWithCI (str "SELECT") sql then .error cfg.selectErr
    else
      let sql2 := trimJS (collapseWs (stripLine (stripBlock sql)))
      let found := findLimitVal sql2
      let lv := match found with
        | some n => min n 100
        | none => 0
      let sql3 :=
        if lv > 100 || (cfg.replaceOnAnyLimit && found.isSome) then replaceLimit sql2
        else sql2
      .ok (sql3, lv)

/-- Error text of the structural field validation. -/
def fieldErr : Str :=
  str "Missing or invalid fields: sql, explanation, allowsLimit, or successStatus"

/-- validateAndSanitize of either variant. The declared-failure branch
(successStatus strictly false and shouldRetry strictly false) returns
the model sql without any check. -/
def validateAndSanitize (cfg : SanitizeCfg) (p : ParsedPlan) : QueryPlan :=
  match p.sql, p.explanation, p.allowsLimit, p.successStatus with
  | some sqlRaw, some expl, some al, some st =>
    if sqlRaw.isEmpty then
      buildFallbackQueryPlan cfg (str "Validation failed: " ++ fieldErr) true
    else if st = false && p.shouldRetry = some false then
      { sql := sqlRaw, explanation := expl, allowsLimit := false, limit := 0
      , successStatus := false, shouldRetry := false }
    else
      match sanitizeSql cfg sqlRaw with
      | .error msg =>
        buildFallbackQueryPlan cfg (str "Validation failed: " ++ msg) true
      | .ok (sql2, lv) =>
        { sql := sql2, explanation := trimJS expl, allowsLimit := al, limit := lv
        , successStatus := true, shouldRetry := false }
  | _, _, _, _ => buildFallbackQueryPlan cfg (str "Validation failed: " ++ fieldErr) true

/-- Internal retry bound of the query plan generator. -/
def MAX_RETRIES : Nat := 3

/-- One pass of the generateQueryPlan retry loop. The oracle gives, per
attempt index, either a thrown error message (API failure, empty
content, or unparseable JSON) or the parsed response object. Prompt
and conversation bookkeeping only feed the external call and are
absorbed into the oracle. Fuel equals MAX_RETRIES plus one minus the
attempt index. -/
def genAttempts (cfg : SanitizeCfg) (responses : Nat → Except Str ParsedPlan) :
    Nat → Nat → QueryPlan
  | 0, _ =>
    buildFallbackQueryPlan cfg (str "Internal error: No valid plan generated.") false
  | fuel + 1, attempt =>
    match responses attempt with
    | .error msg =>
      if attempt = MAX_RETRIES then
        buildFallbackQueryPlan cfg
          (str "Failed after 4 attempts: " ++ msg ++ str ". Please rephrase your question.")
          false
      else genAttempts cfg responses fuel (attempt + 1)
    | .ok p =>
      let r := validateAndSanitize cfg p
      if r.successStatus then r
      else if !r.shouldRetry then r
      else genAttempts cfg responses fuel (attempt + 1)

/-- generateQueryPlan of either variant, as a function of the response
oracle. -/
def generateQueryPlan (cfg : SanitizeCfg) (responses : Nat → Except Str ParsedPlan) :
    QueryPlan :=
  genAttempts cfg responses (MAX_RETRIES + 1) 0

/-! ## Correction loop model (naturalLanguageQueryController) -/

/-- Maximum retries after execution failure. -/
def MAX_CORRECTION_ATTEMPTS : Nat := 2

/-- One failed execution attempt fed back to the generator. -/
structure CorrectionFeedback where
  sql : Str
  error : Str
deriving Repr, DecidableEq

/-- Outcome of the controller loop: success flag, number of SQL
execution attempts made, the error feedback log as returned to the
caller, and the sql reported in the response. -/
structure LoopResult where
  success : Bool
  execCount : Nat
  feedback : List CorrectionFeedback
  finalSql : Str
deriving Repr, DecidableEq

/-- Scanner for a word-boundary-anchored literal pattern (used for the
LIMIT placeholder regex): first match position, returning the text
before the match and the text after it. -/
def scanPat (pat : Str) : Option Char → Str → Str → Option (Str × Str)
  | _, _, [] => none
  | prev, acc, c :: cs =>
    if boundaryBefore prev && matchCI pat (c :: cs) then
      some (acc.reverse, (c :: cs).drop pat.length)
    else scanPat pat (some c) (c :: acc) cs

/-- Replace the first word-boundary-anchored case-insensitive occurrence
of pat by repl. -/
def replaceBoundPat (pat repl : Str) (s : Str) : Str :=
  match scanPat pat none [] s with
  | some (pre, rest) => pre ++ repl ++ rest
  | none => s

/-- Decimal rendering of a number, for splicing the clamped limit into
the SQL text. -/
def natStr (n : Nat) : Str := (Nat.repr n).data

/-- The controller limit substitution: clamp the caller limit to 100 and
replace the LIMIT placeholder. -/
def substLimitParam (sql : Str) (limit : Nat) : Str :=
  replaceBoundPat (str "LIMIT ?") (str "LIMIT " ++ natStr (min limit 100)) sql

/-- The while loop of the controller. The execution oracle gives, per
execution index, none for a successful run and some message for a
database error (already reduced to its single-line diagnostic). The
regeneration oracle gives the plan produced by generateQueryPlan after
the failure with the same index; the accumulated feedback only feeds
the generator prompt, which the oracle absorbs. remaining equals
MAX_CORRECTION_ATTEMPTS minus the attempts counter. limitParam models
a truthy numeric request limit (none when absent or zero). -/
def runCorrectionLoop (execs : Nat → Option Str) (regens : Nat → QueryPlan)
    (limitParam : Option Nat) (remaining : Nat) (plan : QueryPlan) (finalSql : Str)
    (execIdx : Nat) (log : List CorrectionFeedback) : LoopResult :=
  let sqlToRun :=
    match limitParam with
    | some lim => if plan.allowsLimit then substLimitParam finalSql lim else finalSql
    | none => finalSql
  match execs execIdx with
  | none =>
    { success := true, execCount := execIdx + 1, feedback := log, finalSql := sqlToRun }
  | some err =>
    let log2 := log ++ [{ sql := finalSql, error := err }]
    match remaining with
    | 0 =>
      { success := false, execCount := execIdx + 1, feedback := log2, finalSql := finalSql }
    | r + 1 =>
      let cp := regens execIdx
      if cp.successStatus = false then
        { success := false, execCount := execIdx + 1, feedback := log2, finalSql := cp.sql }
      else runCorrectionLoop execs regens limitParam r cp cp.sql (execIdx + 1) log2

/-- The correction loop of naturalLanguageQueryController, from the
initial plan onward (the routing and input validation precede it). -/
def naturalLanguageQueryLoop (execs : Nat → Option Str) (regens : Nat → QueryPlan)
    (limitParam : Option Nat) (initialPlan : QueryPlan) : LoopResult :=
  runCorrectionLoop execs regens limitParam MAX_CORRECTION_ATTEMPTS initialPlan
    initialPlan.sql 0 []

/-! ## Batch cleanup model (DataCleanupService) -/

/-- JSON scalar values held by a row (the spec-level Row is a mapping of
column name to scalar value). -/
inductive JVal where
  | jstr (s : Str)
  | jnum (n : Int)
  | jbool (b : Bool)
  | jnull
deriving Repr, DecidableEq

/-- A database row: ordered mapping of column name to scalar value. -/
abbrev Row := List (Str × JVal)

/-- Double-quote character. -/
def dquote : Char := Char.ofNat 34

/-- Backslash character. -/
def bslash : Char := Char.ofNat 92

/-- Lowercase hexadecimal digit, for JSON control-character escapes. -/
def hexDigit (n : Nat) : Char :=
  if n < 10 then Char.ofNat (48 + n) else Char.ofNat (87 + n)

/-- JSON.stringify escaping of one character inside a string literal. -/
def escChar (c : Char) : Str :=
  if c.toNat = 34 then [bslash, dquote]
  else if c.toNat = 92 then [bslash, bslash]
  else if c.toNat = 8 then [bslash, 'b']
  else if c.toNat = 9 then [bslash, 't']
  else if c.toNat = 10 then [bslash, 'n']
  else if c.toNat = 12 then [bslash, 'f']
  else if c.toNat = 13 then [bslash, 'r']
  else if c.toNat < 32 then
    [bslash, 'u', '0', '0', hexDigit (c.toNat / 16), hexDigit (c.toNat % 16)]
  else [c]

/-- JSON string literal for s. -/
def jsonQuote (s : Str) : Str := [dquote] ++ (s.map escChar).flatten ++ [dquote]

/-- JSON.stringify of a scalar. -/
def JVal.stringify : JVal → Str
  | .jstr s => jsonQuote s
  | .jnum n => (Int.repr n).data
  | .jbool b => if b then str "true" else str "false"
  | .jnull => str "null"

/-- Opening and closing brace characters. -/
def obrace : Char := Char.ofNat 123

def cbrace : Char := Char.ofNat 125

/-- JSON.stringify of a row object, keys in insertion order. -/
def stringifyRow (r : Row) : Str :=
  [obrace]
    ++ List.intercalate (str ",")
        (r.map (fun kv => jsonQuote kv.1 ++ str ":" ++ kv.2.stringify))
    ++ [cbrace]

/-- JSON.stringify of the full row array. -/
def stringifyRows (rows : List Row) : Str :=
  str "[" ++ List.intercalate (str ",") (rows.map stringifyRow) ++ str "]"

/-- UTF-8 encoded size of one character, the per-character contribution
of Buffer.byteLength with utf8 encoding. -/
def utf8Size (c : Char) : Nat :=
  if c.toNat < 128 then 1
  else if c.toNat < 2048 then 2
  else if c.toNat < 65536 then 3
  else 4

/-- Buffer.byteLength of a string under utf8. -/
def byteLen (s : Str) : Nat := (s.map utf8Size).sum

/-- Configuration constants of the cleanup service. -/
def MAX_CONCURRENT_REQUESTS : Nat := 3

def RETRY_ATTEMPTS : Nat := 3

def MAX_BYTES_PER_CHUNK : Nat := 3000

/-- Math.ceil of a natural division (exact for the magnitudes involved). -/
def ceilDiv (a b : Nat) : Nat := (a + b - 1) / b

/-- calculateChunkCount: zero for an empty row set, otherwise at least
one chunk per started 3000 bytes of the serialized row array. -/
def calculateChunkCount (rows : List Row) : Nat :=
  if rows.isEmpty then 0
  else max 1 (ceilDiv (byteLen (stringifyRows rows)) MAX_BYTES_PER_CHUNK)

/-- The chunk helper: contiguous slices of the given size. A size of
zero never occurs at the call site (the loop would not terminate in the
source); the model returns no chunks for it. -/
def chunkGo : Nat → Nat → List α → List (List α)
  | _, 0, _ => []
  | 0, _, _ => []
  | fuel + 1, size, l =>
    if l.isEmpty then [] else l.take size :: chunkGo fuel size (l.drop size)

def chunk (size : Nat) (l : List α) : List (List α) := chunkGo l.length size l

/-- A CleanResult as surfaced by the orchestrator. The original field is
optional because the success path of callAIWithTimeout does not set it
(the assignment is commented out in the source). -/
structure CleanResult where
  original : Option Row
  cleaned : Row
  changes : List (Str × Str)
  needsReview : Bool
  isFailed : Bool
  suggestions : Option Str
deriving Repr, DecidableEq

/-- One item of the results array of a parsed model response; absent
fields are defaulted during mapping. The needsReview field is already
collapsed through Boolean truthiness. -/
structure RawResult where
  cleaned : Option Row
  changes : Option (List (Str × Str))
  needsReview : Bool
  suggestions : Option Str
deriving Repr, DecidableEq

/-- The mapping applied to each parsed result item in callAIWithTimeout. -/
def mapRaw (r : RawResult) : CleanResult :=
  { original := none
  , cleaned := r.cleaned.getD []
  , changes := r.changes.getD []
  , needsReview := r.needsReview
  , isFailed := false
  , suggestions := r.suggestions }

/-- fallbackBatch: every row degrades to an unmodified needs-review
failure result. -/
def fallbackBatch (batch : List Row) : List CleanResult :=
  batch.map (fun row =>
    { original := some row, cleaned := row, changes := [], needsReview := true
    , isFailed := true, suggestions := none })

/-- The retry loop of processBatchWithRetry. The oracle gives, per
attempt index, the outcome of callAIWithTimeout: an error (timeout,
API failure, empty content, unparseable JSON) or the parsed results
array. Backoff delays do not affect the value. Fuel counts the
remaining attempts out of RETRY_ATTEMPTS. -/
def processGo (attempts : Nat → Except Unit (List RawResult)) (batch : List Row) :
    Nat → Nat → List CleanResult
  | 0, _ => fallbackBatch batch
  | fuel + 1, i =>
    match attempts i with
    | .ok rs => rs.map mapRaw
    | .error _ => processGo attempts batch fuel (i + 1)

/-- processBatchWithRetry as a function of the per-attempt outcome
oracle. -/
def processBatchWithRetry (attempts : Nat → Except Unit (List RawResult))
    (batch : List Row) : List CleanResult :=
  processGo attempts batch RETRY_ATTEMPTS 0

/-- The batches cleanDataBatch builds: batchSize is the ceiling of the
row count over the chunk count. -/
def batchesOf (rows : List Row) : List (List Row) :=
  chunk (ceilDiv rows.length (calculateChunkCount rows)) rows

/-- suggestKeyFieldFromRow as a function of the model response: outer
error is an API failure (logged and rethrown); ok none is a missing
content field (the optional chain leaves the suggestion undefined and
the validation falls back); ok some is the raw content, which is
trimmed, stripped of quote characters, and validated against the
column names of the row. -/
def suggestKeyFieldFromRow (row : Row) (resp : Except Unit (Option Str)) :
    Except Unit Str :=
  match resp with
  | .error _ => .error ()
  | .ok none => .ok (str "id")
  | .ok (some content) =>
    let field := (trimJS content).filter (fun c => !(c.toNat == 34 || c.toNat == 39))
    if field.isEmpty || !((row.map Prod.fst).contains field) then .ok (str "id")
    else .ok field

/-- Results contributed by the batch at the given index. -/
def blockOf (attempts : Nat → Nat → Except Unit (List RawResult))
    (batches : List (List Row)) (i : Nat) : List CleanResult :=
  processBatchWithRetry (attempts i) (batches.getD i [])

/-- cleanDataBatch. order is the completion order of the concurrent
batch tasks (a ghost schedule): the source pushes each finished batch
block onto the shared results array at completion time, so the output
is the concatenation of per-batch blocks in completion order. The
admission-control loop (cap 3) restricts which schedules can occur;
with at most three batches every permutation of the indices is
schedulable. The initial suggestKeyFieldFromRow call (marked as a
testing leftover in the source) rethrows an API failure before any
batch work starts, hence the Except shape. The catch around each batch
task is unreachable because processBatchWithRetry already degrades to
the fallback instead of throwing. -/
def cleanDataBatch (rows : List Row) (suggestResp : Except Unit (Option Str))
    (attempts : Nat → Nat → Except Unit (List RawResult)) (order : List Nat) :
    Except Unit (List CleanResult) :=
  if rows.isEmpty then .ok []
  else
    match suggestKeyFieldFromRow (rows.headD []) suggestResp with
    | .error _ => .error ()
    | .ok _ => .ok ((order.map (blockOf attempts (batchesOf rows))).flatten)

/-- Aggregate outcome of applyCleanup, with a ghost flag recording that
the external key-field suggestion call was made. -/
structure ApplyOutcome where
  updatedCount : Nat
  errors : List Str
  usedKey : Str
  aiCalled : Bool
deriving Repr, DecidableEq

/-- The filter selecting rows that are applied: not marked for review
and carrying at least one change. -/
def safeResults (results : List CleanResult) : List CleanResult :=
  results.filter (fun r => !r.needsReview && !r.changes.isEmpty)

/-- applyCleanup. modelFound covers the dynamic table lookup (getModel
throws for an unknown table name before anything else). The update
oracle gives, per safe-row index, none for a successful update and
some message for a caught update error; the per-row error text
formatting is elided (no claim references it) and the sequential fold
stands in for the capped-concurrency pool, whose completion order only
permutes the errors array. The suggestion call happens before the key
field is chosen, on the original field of the first safe result;
reading that field of an empty array, or passing its undefined value
to the helper, raises. -/
def applyCleanup (modelFound : Bool) (results : List CleanResult)
    (keyField : Option Str) (suggestResp : Except Unit (Option Str))
    (updates : Nat → Option Str) : Except Unit ApplyOutcome :=
  if !modelFound then .error ()
  else
    match safeResults results with
    | [] => .error ()
    | r0 :: _ =>
      match r0.original with
      | none => .error ()
      | some row0 =>
        match suggestKeyFieldFromRow row0 suggestResp with
        | .error _ => .error ()
        | .ok suggested =>
          let kf :=
            match keyField with
            | some k => if k.isEmpty then suggested else k
            | none => suggested
          if kf.isEmpty then .error ()
          else
            let outcomes := (List.range (safeResults results).length).map updates
            .ok { updatedCount := outcomes.countP (fun o => o.isNone)
                , errors := outcomes.filterMap id
                , usedKey := kf
                , aiCalled := true }

/-! ## Data source router model (DataSourceRouterService) -/

/-- The four routing targets. -/
inductive RouteTarget where
  | entities
  | dms
  | general
  | unknown
deriving Repr, DecidableEq

/-- The routing decision record. -/
structure RoutingDecision where
  target : RouteTarget
  confidence : ℚ
  reason : Str
  markdownResponse : Option Str
  entities_tables : Option (List Str)
  dms_tables : Option (List Str)
  matched_pattern : Option Str
  ai_used : Option Bool
deriving Repr, DecidableEq

/-- Case-insensitive substring containment (an unanchored regex
alternative branch). -/
def containsCI (pat : Str) : Str → Bool
  | [] => matchCI pat []
  | c :: cs => matchCI pat (c :: cs) || containsCI pat cs

/-- Case-insensitive ends-with (a dollar-anchored regex alternative
branch). -/
def endsWithCI (pat : Str) (s : Str) : Bool :=
  decide (pat.length ≤ s.length) && matchCI pat (s.drop (s.length - pat.length))

/-- normalizeQuestion: lowercase, trim, replace every character outside
word characters, whitespace and hyphen by a space, collapse
whitespace. -/
def normalizeQuestion (q : Str) : Str :=
  collapseWs ((trimJS (q.map Char.toLower)).map
    (fun c => if isWordChar c || isSpaceJS c || c == '-' then c else ' '))

/-- The greeting pattern: caret anchors its first branch, dollar its
last; middle branches are unanchored. -/
def isGreeting (q : Str) : Bool :=
  startsWithCI (str "hi") q || containsCI (str "hello") q || containsCI (str "hey") q ||
  containsCI (str "yo") q || containsCI (str "sup") q || containsCI (str "greetings") q ||
  containsCI (str "good morning") q || containsCI (str "good afternoon") q ||
  endsWithCI (str "good evening") q

/-- The identity pattern; the optional article group expands to three
alternatives per subject word. -/
def identityPhrases : List Str :=
  [str "are you ai", str "are you a ai", str "are you an ai",
   str "are you bot", str "are you a bot", str "are you an bot",
   str "are you assistant", str "are you a assistant", str "are you an assistant",
   str "are you llm", str "are you a llm", str "are you an llm"]

def isIdentity (q : Str) : Bool :=
  startsWithCI (str "who are you") q || containsCI (str "what are you") q ||
  identityPhrases.any (fun p => containsCI p q)

def capabilityPhrases : List Str :=
  [str "what are your abilities", str "what are your capabilities",
   str "what are your features", str "what is your abilities",
   str "what is your capabilities", str "what is your features"]

def isCapabilities (q : Str) : Bool :=
  startsWithCI (str "what can you do") q || containsCI (str "how can you help") q ||
  capabilityPhrases.any (fun p => containsCI p q)

def isHelp (q : Str) : Bool :=
  startsWithCI (str "help") q || containsCI (str "assist me") q ||
  containsCI (str "guide me") q || containsCI (str "show me how") q ||
  containsCI (str "instructions") q || containsCI (str "manual") q

def isFeedback (q : Str) : Bool :=
  startsWithCI (str "thank you") q || containsCI (str "thanks") q ||
  containsCI (str "appreciate") q || containsCI (str "great job") q ||
  containsCI (str "well done") q

def isMeta (q : Str) : Bool :=
  startsWithCI (str "what is this") q || containsCI (str "what is this system") q ||
  containsCI (str "explain this") q || containsCI (str "how does this work") q ||
  containsCI (str "purpose of this") q

/-- The ordered conversational pattern table: test, printed regex
source, category. -/
def generalPatterns : List ((Str → Bool) × Str × Str) :=
  [(isGreeting,
    str "/^hi|hello|hey|yo|sup|greetings|good morning|good afternoon|good evening$/i",
    str "greeting"),
   (isIdentity, str "/^who are you|what are you|are you (an? )?(ai|bot|assistant|llm)/i",
    str "identity"),
   (isCapabilities,
    str "/^what can you do|how can you help|what (are|is) your (abilities|capabilities|features)/i",
    str "capabilities"),
   (isHelp, str "/^help|assist me|guide me|show me how|instructions|manual/i",
    str "help"),
   (isFeedback, str "/^thank you|thanks|appreciate|great job|well done/i",
    str "feedback"),
   (isMeta,
    str "/^what is this|what is this system|explain this|how does this work|purpose of this/i",
    str "meta")]

/-- matchGeneralPattern: first matching pattern wins; yields the printed
pattern source and the category. -/
def matchGeneralPattern (q : Str) : Option (Str × Str) :=
  (generalPatterns.find? (fun e => e.1 q)).map (fun e => e.2)

/-- buildGeneralMarkdown: the literal markdown template bodies are
elided (no claim references their text); only the choice of template
by category, with the default for unknown categories, is modelled. -/
def markdownCategories : List Str :=
  [str "greeting", str "identity", str "capabilities", str "help", str "feedback",
   str "meta"]

def buildGeneralMarkdown (category : Str) : Str :=
  if markdownCategories.contains category then str "template:" ++ category
  else str "template:default"

/-- A keyword signal matcher: a whole-word keyword or the ticket-id
pattern (tk followed by digits, word-bounded). -/
inductive SigPat where
  | word (kw : Str)
  | tkId
deriving Repr, DecidableEq

/-- Word-bounded match of tk-digits at the head of s. -/
def tkNumAt (s : Str) : Bool :=
  matchCI (str "tk") s &&
    (let r := s.drop 2
     let ds := r.takeWhile Char.isDigit
     !ds.isEmpty &&
       (match r.drop ds.length with
        | [] => true
        | c :: _ => !isWordChar c))

def containsTkNumGo : Option Char → Str → Bool
  | _, [] => false
  | prev, c :: cs =>
    (boundaryBefore prev && tkNumAt (c :: cs)) || containsTkNumGo (some c) cs

def containsTkNum (s : Str) : Bool := containsTkNumGo none s

def SigPat.test : SigPat → Str → Bool
  | .word kw, q => containsWordCI kw q
  | .tkId, q => containsTkNum q

/-- Printed source text of a signal pattern (for the trigger field). -/
def SigPat.source : SigPat → Str
  | .word kw => kw
  | .tkId => str "tk" ++ [bslash] ++ str "d+"

structure Signal where
  pat : SigPat
  weight : ℚ
  tables : List Str
  context : Str
deriving Repr

/-- The DMS keyword signal table. -/
def dmsSignals : List Signal :=
  [⟨.word (str "ticket"), 0.95, [str "leads_tickets"], str "explicit ticket reference"⟩,
   ⟨.tkId, 0.95, [str "leads_tickets"], str "ticket ID format"⟩,
   ⟨.word (str "note"), 0.9, [str "leads_notes"], str "explicit note reference"⟩,
   ⟨.word (str "task"), 0.9, [str "leads_tickets"], str "explicit task reference"⟩,
   ⟨.word (str "reminder"), 0.9, [str "reminders"], str "explicit reminder reference"⟩,
   ⟨.word (str "assigned to"), 0.9, [str "leads_tickets", str "users"],
    str "assignment context"⟩,
   ⟨.word (str "deadline"), 0.9, [str "leads_tickets"], str "deadline context"⟩,
   ⟨.word (str "status"), 0.85, [str "leads_tickets"], str "status context"⟩,
   ⟨.word (str "tag"), 0.85, [str "leads_tags"], str "tag context"⟩,
   ⟨.word (str "lead"), 0.85, [str "leads_transactions"], str "lead context"⟩,
   ⟨.word (str "opportunity"), 0.85, [str "leads_transactions"], str "opportunity context"⟩,
   ⟨.word (str "transaction"), 0.8, [str "leads_transactions"], str "transaction context"⟩,
   ⟨.word (str "owned by"), 0.8, [str "leads_tickets", str "users"], str "ownership context"⟩,
   ⟨.word (str "created by"), 0.8, [str "leads_notes", str "users"], str "authorship context"⟩,
   ⟨.word (str "updated by"), 0.8, [str "leads_tickets", str "users"], str "update context"⟩,
   ⟨.word (str "follow up"), 0.75, [str "leads_tickets"], str "follow-up context"⟩,
   ⟨.word (str "pending"), 0.75, [str "leads_tickets"], str "pending status"⟩,
   ⟨.word (str "overdue"), 0.75, [str "leads_tickets"], str "overdue context"⟩,
   ⟨.word (str "priority"), 0.7, [str "leads_tickets"], str "priority context"⟩,
   ⟨.word (str "escalate"), 0.7, [str "leads_tickets"], str "escalation context"⟩]

/-- The Entities keyword signal table. -/
def entitiesSignals : List Signal :=
  [⟨.word (str "entity"), 0.98, [str "entity"], str "explicit entity reference"⟩,
   ⟨.word (str "company"), 0.95, [str "entity"], str "company context"⟩,
   ⟨.word (str "organization"), 0.95, [str "entity"], str "organization context"⟩,
   ⟨.word (str "person"), 0.95, [str "people"], str "person context"⟩,
   ⟨.word (str "individual"), 0.95, [str "people"], str "individual context"⟩,
   ⟨.word (str "bank account"), 0.95, [str "bank_account"], str "bank account context"⟩,
   ⟨.word (str "iban"), 0.95, [str "bank_account"], str "IBAN context"⟩,
   ⟨.word (str "swift"), 0.95, [str "bank"], str "SWIFT context"⟩,
   ⟨.word (str "bic"), 0.95, [str "bank"], str "BIC context"⟩,
   ⟨.word (str "address"), 0.95, [str "address"], str "address context"⟩,
   ⟨.word (str "risk rating"), 0.95, [str "entity_risk_and_rates"],
    str "risk rating context"⟩,
   ⟨.word (str "credit limit"), 0.95, [str "entity_risk_and_rates"],
    str "credit limit context"⟩,
   ⟨.word (str "role"), 0.9, [str "entity_role", str "role"], str "role context"⟩,
   ⟨.word (str "debtor"), 0.9, [str "entity_role", str "role"], str "debtor context"⟩,
   ⟨.word (str "creditor"), 0.9, [str "entity_role", str "role"], str "creditor context"⟩,
   ⟨.word (str "originator"), 0.9, [str "entity_role", str "role"],
    str "originator context"⟩,
   ⟨.word (str "contact"), 0.9, [str "entity_contact", str "people"],
    str "contact context"⟩,
   ⟨.word (str "email"), 0.9, [str "entity_property"], str "email context"⟩,
   ⟨.word (str "phone"), 0.9, [str "entity_property"], str "phone context"⟩,
   ⟨.word (str "website"), 0.9, [str "entity_property"], str "website context"⟩,
   ⟨.word (str "asset"), 0.9, [str "asset"], str "asset context"⟩,
   ⟨.word (str "property"), 0.85, [str "entity_property", str "property"],
    str "property context"⟩,
   ⟨.word (str "country"), 0.85, [str "param_country", str "address"],
    str "country context"⟩,
   ⟨.word (str "city"), 0.85, [str "address"], str "city context"⟩,
   ⟨.word (str "state"), 0.85, [str "address"], str "state context"⟩,
   ⟨.word (str "zipcode"), 0.85, [str "address"], str "zipcode context"⟩,
   ⟨.word (str "trade name"), 0.85, [str "entity"], str "trade name context"⟩,
   ⟨.word (str "legal name"), 0.85, [str "entity"], str "legal name context"⟩,
   ⟨.word (str "registration number"), 0.85, [str "global_organisations"],
    str "registration context"⟩,
   ⟨.word (str "client"), 0.8, [str "entity"], str "client context"⟩,
   ⟨.word (str "customer"), 0.8, [str "entity"], str "customer context"⟩,
   ⟨.word (str "vendor"), 0.8, [str "entity"], str "vendor context"⟩,
   ⟨.word (str "supplier"), 0.8, [str "entity"], str "supplier context"⟩,
   ⟨.word (str "partner"), 0.8, [str "entity"], str "partner context"⟩,
   ⟨.word (str "employee"), 0.75, [str "people"], str "employee context"⟩,
   ⟨.word (str "director"), 0.75, [str "people"], str "director context"⟩,
   ⟨.word (str "manager"), 0.75, [str "people"], str "manager context"⟩,
   ⟨.word (str "owner"), 0.75, [str "entity_mapping"], str "ownership context"⟩,
   ⟨.word (str "parent company"), 0.75, [str "entity_mapping"], str "parent context"⟩,
   ⟨.word (str "subsidiary"), 0.75, [str "entity_mapping"], str "subsidiary context"⟩,
   ⟨.word (str "currency"), 0.7, [str "bank_account"], str "currency context"⟩,
   ⟨.word (str "balance"), 0.7, [str "bank_account"], str "balance context"⟩]

/-- Result of a signal analysis pass. -/
structure SignalScore where
  confidence : ℚ
  reason : Str
  tables : List Str
  trigger : Str
deriving Repr

/-- The shared signal fold: maximum weight with strict improvement, so
the first signal of maximal weight wins. -/
def bestSignal (signals : List Signal) (q : Str) : SignalScore :=
  signals.foldl
    (fun acc sig =>
      if sig.pat.test q && decide (acc.confidence < sig.weight) then
        { confidence := sig.weight, reason := sig.context, tables := sig.tables
        , trigger := sig.pat.source }
      else acc)
    { confidence := 0, reason := [], tables := [], trigger := [] }

def analyzeDmsSignals (q : Str) : SignalScore := bestSignal dmsSignals q

/-- analyzeEntitiesSignals, including its medium-confidence default when
nothing matches. -/
def analyzeEntitiesSignals (q : Str) : SignalScore :=
  let s := bestSignal entitiesSignals q
  if s.confidence = 0 then
    { confidence := 0.75
    , reason := str "No specific signal detected - defaulting to Entities (primary system)"
    , tables := [str "entity", str "people", str "address"]
    , trigger := str "default" }
  else s

/-- A parsed routing response from the model. target is none when the
membership check on the four allowed values fails; confidence is none
when the field is not a number; the remaining fields are none when
absent (or, for reason and markdownResponse, falsy). -/
structure ParsedRoute where
  target : Option RouteTarget
  confidence : Option ℚ
  reason : Option Str
  markdownResponse : Option Str
  entities_tables : Option (List Str)
  dms_tables : Option (List Str)
deriving Repr

/-- Clamp a confidence into the unit interval. -/
def clamp01 (c : ℚ) : ℚ := min 1 (max 0 c)

/-- callAI: none models every failure mode (API error, empty content,
unparseable JSON, invalid target), in which case the caller falls
back. -/
def callAI (resp : Option ParsedRoute) : Option RoutingDecision :=
  match resp with
  | none => none
  | some parsed =>
    match parsed.target with
    | none => none
    | some tgt =>
      let md :=
        match parsed.markdownResponse with
        | some m => some m
        | none =>
          if tgt = RouteTarget.general then some (buildGeneralMarkdown (str "ai_fallback"))
          else none
      some
        { target := tgt
        , confidence :=
            match parsed.confidence with
            | some c => clamp01 c
            | none => 0.5
        , reason := parsed.reason.getD (str "AI decision")
        , markdownResponse := md
        , entities_tables := parsed.entities_tables
        , dms_tables := parsed.dms_tables
        , matched_pattern := none
        , ai_used := some true }

/-- routeQuestion, as a function of the question and the routing-call
oracle. Every failure of the generative layer is inside the oracle
(callAI returning none) and is caught; the function is total. -/
def routeQuestion (question : Str) (ai : Option ParsedRoute) : RoutingDecision :=
  let q := trimJS question
  if q.isEmpty then
    { target := .unknown, confidence := 0, reason := str "Empty question received."
    , markdownResponse := none, entities_tables := none, dms_tables := none
    , matched_pattern := none, ai_used := some false }
  else
    let normalized := normalizeQuestion q
    match matchGeneralPattern normalized with
    | some pc =>
      { target := .general, confidence := clamp01 0.95
      , reason := str "Matched general pattern: " ++ pc.1
      , markdownResponse := some (buildGeneralMarkdown pc.2)
      , entities_tables := none, dms_tables := none
      , matched_pattern := some pc.1, ai_used := some false }
    | none =>
      let dmsSig := analyzeDmsSignals normalized
      if 0.8 ≤ dmsSig.confidence then
        { target := .dms, confidence := clamp01 dmsSig.confidence
        , reason := str "Strong DMS signal: " ++ dmsSig.reason
        , markdownResponse := none, entities_tables := none
        , dms_tables := some dmsSig.tables
        , matched_pattern := some dmsSig.trigger, ai_used := some false }
      else
        let entSig := analyzeEntitiesSignals normalized
        if 0.85 ≤ entSig.confidence then
          { target := .entities, confidence := clamp01 entSig.confidence
          , reason := str "Strong Entities signal: " ++ entSig.reason
          , markdownResponse := none
          , entities_tables := some entSig.tables, dms_tables := none
          , matched_pattern := some entSig.trigger, ai_used := some false }
        else
          match callAI ai with
          | some d => d
          | none =>
            if entSig.confidence < dmsSig.confidence then
              { target := .dms, confidence := clamp01 (max dmsSig.confidence 0.5)
              , reason := str "Fallback: DMS signal stronger than Entities (AI failed)"
              , markdownResponse := none, entities_tables := none
              , dms_tables := some dmsSig.tables
              , matched_pattern := some dmsSig.trigger, ai_used := some false }
            else
              { target := .entities
              , confidence := clamp01 (max entSig.confidence 0.7)
              , reason := str "Fallback: Entities signal stronger or default (AI failed)"
              , markdownResponse := none
              , entities_tables := some entSig.tables, dms_tables := none
              , matched_pattern := some entSig.trigger, ai_used := some false }

/-! ## Derived definitions used by the statements -/

/-- The normalization pipeline the sanitizer applies after its checks:
comment stripping, whitespace collapse, and trimming, starting from the
trimmed raw sql. -/
def normSql (raw : Str) : Str :=
  trimJS (collapseWs (stripLine (stripBlock (trimJS raw))))

/-- Characters that can appear at a position that case-insensitively
matches a letter of a keyword: word characters that are not whitespace
and none of the comment or hyphen starters. -/
def keycharOK (c : Char) : Prop :=
  isWordChar c = true ∧ isSpaceJS c = false ∧ c ≠ '/' ∧ c ≠ '-' ∧ c ≠ '*'

/-- Patterns whose characters all fold to lowercase ASCII letters. -/
def lowersOK (p : Str) : Prop :=
  ∀ k ∈ p, 97 ≤ k.toLower.toNat ∧ k.toLower.toNat ≤ 122

/-! # Theorems -/

/-! ### Character and pattern lemmas -/

theorem toLower_spec (c : Char) :
    c.toLower = if c.toNat ≥ 65 ∧ c.toNat ≤ 90 then Char.ofNat (c.toNat + 32) else c :=
  rfl

theorem keychar_of_toLower (c x : Char) (h1 : 97 ≤ x.toNat) (h2 : x.toNat ≤ 122)
    (hx : c.toLower = x) : keycharOK c := by
  by_cases h : 65 ≤ c.toNat ∧ c.toNat ≤ 90
  · refine ⟨?_, ?_, ?_, ?_, ?_⟩
    · simp [isWordChar]; omega
    · simp [isSpaceJS]; omega
    · intro hc; subst hc; simp at h
    · intro hc; subst hc; simp at h
    · intro hc; subst hc; simp at h
  · rw [toLower_spec, if_neg h] at hx
    subst hx
    refine ⟨?_, ?_, ?_, ?_, ?_⟩
    · simp [isWordChar]; omega
    · simp [isSpaceJS]; omega
    · intro hc; subst hc; simp at h1 h2
    · intro hc; subst hc; simp at h1 h2
    · intro hc; subst hc; simp at h1 h2

theorem matchCI_keychar : ∀ (p s : Str), lowersOK p → matchCI p s = true →
    ∀ c ∈ s.take p.length, keycharOK c := by
  intro p
  induction p with
  | nil => intro s _ _ c hc; simp at hc
  | cons k ks ih =>
    intro s hl hm c hc
    match s, hm with
    | c0 :: cs, hm =>
      simp only [matchCI, Bool.and_eq_true, beq_iff_eq] at hm
      simp only [List.length_cons, List.take_succ_cons, List.mem_cons] at hc
      rcases hc with hc | hc
      · subst hc
        have hk := hl k (by simp)
        exact keychar_of_toLower c k.toLower hk.1 hk.2 hm.1.symm
      · exact ih cs (fun x hx => hl x (by simp [hx])) hm.2 c hc

theorem matchCI_take : ∀ (p s : Str) (k : Nat), matchCI p s = true → p.length ≤ k →
    matchCI p (s.take k) = true := by
  intro p
  induction p with
  | nil => intro s k _ _; simp [matchCI]
  | cons a p' ih =>
    intro s k hm hk
    match s, hm with
    | c :: cs, hm =>
      simp only [matchCI, Bool.and_eq_true] at hm
      match k, hk with
      | k' + 1, hk2 =>
        simp only [List.take_succ_cons, matchCI, Bool.and_eq_true]
        refine ⟨hm.1, ih cs k' hm.2 ?_⟩
        simp only [List.length_cons] at hk2
        omega

theorem matchCI_append_of_le : ∀ (p t u : Str), matchCI p t = true → p.length ≤ t.length →
    matchCI p (t ++ u) = true := by
  intro p
  induction p with
  | nil => intro t u _ _; simp [matchCI]
  | cons a p' ih =>
    intro t u hm hl
    match t, hm with
    | c :: cs, hm =>
      simp only [matchCI, Bool.and_eq_true] at hm
      simp only [List.cons_append, matchCI, Bool.and_eq_true]
      exact ⟨hm.1, ih cs u hm.2 (by simpa using hl)⟩

theorem matchCI_of_append_spaces : ∀ (p t w : Str), lowersOK p →
    (∀ c ∈ w, isSpaceJS c = true) → matchCI p (t ++ w) = true → matchCI p t = true := by
  intro p
  induction p with
  | nil => intro t w _ _ _; simp [matchCI]
  | cons a p' ih =>
    intro t w hl hw hm
    match t with
    | [] =>
      simp only [List.nil_append] at hm
      match w, hm with
      | c :: cs, hm =>
        simp only [matchCI, Bool.and_eq_true, beq_iff_eq] at hm
        have ha := hl a (by simp)
        have := keychar_of_toLower c a.toLower ha.1 ha.2 hm.1.symm
        have hsp := hw c (by simp)
        exact absurd hsp (by simp [this.2.1])
    | c :: cs =>
      simp only [List.cons_append, matchCI, Bool.and_eq_true] at hm ⊢
      exact ⟨hm.1, ih cs w (fun x hx => hl x (by simp [hx])) hw hm.2⟩

theorem stripBlock_cons_ne (c : Char) (cs : Str) (h : c ≠ '/') :
    stripBlock (c :: cs) = c :: stripBlock cs := by
  show stripBlockGo (cs.length + 1) (c :: cs) = c :: stripBlockGo cs.length cs
  rw [stripBlockGo.eq_def]
  split
  · simp_all
  · simp_all
  · simp_all
  · rename_i f2 c2 cs2 hfun heq1 heq2
    injection heq2 with e1 e2
    subst e1; subst e2
    injection heq1 with e3
    subst e3
    rfl

theorem stripLine_cons_ne (c : Char) (cs : Str) (h : c ≠ '-') :
    stripLine (c :: cs) = c :: stripLine cs := by
  show stripLineGo (cs.length + 1) (c :: cs) = c :: stripLineGo cs.length cs
  rw [stripLineGo.eq_def]
  split
  · simp_all
  · simp_all
  · simp_all
  · rename_i f2 c2 cs2 hfun heq1 heq2
    injection heq2 with e1 e2
    subst e1; subst e2
    injection heq1 with e3
    subst e3
    rfl

theorem matchCI_stripBlock : ∀ (p s : Str), lowersOK p → matchCI p s = true →
    matchCI p (stripBlock s) = true := by
  intro p
  induction p with
  | nil => intro s _ _; simp [matchCI]
  | cons a p' ih =>
    intro s hl hm
    match s, hm with
    | c :: cs, hm =>
      simp only [matchCI, Bool.and_eq_true, beq_iff_eq] at hm
      have ha := hl a (by simp)
      have hc := keychar_of_toLower c a.toLower ha.1 ha.2 hm.1.symm
      rw [stripBlock_cons_ne c cs hc.2.2.1]
      simp only [matchCI, Bool.and_eq_true, beq_iff_eq]
      exact ⟨hm.1, ih cs (fun x hx => hl x (by simp [hx])) hm.2⟩

theorem matchCI_stripLine : ∀ (p s : Str), lowersOK p → matchCI p s = true →
    matchCI p (stripLine s) = true := by
  intro p
  induction p with
  | nil => intro s _ _; simp [matchCI]
  | cons a p' ih =>
    intro s hl hm
    match s, hm with
    | c :: cs, hm =>
      simp only [matchCI, Bool.and_eq_true, beq_iff_eq] at hm
      have ha := hl a (by simp)
      have hc := keychar_of_toLower c a.toLower ha.1 ha.2 hm.1.symm
      rw [stripLine_cons_ne c cs hc.2.2.2.1]
      simp only [matchCI, Bool.and_eq_true, beq_iff_eq]
      exact ⟨hm.1, ih cs (fun x hx => hl x (by simp [hx])) hm.2⟩

theorem matchCI_collapseGo : ∀ (p s : Str) (b : Bool), lowersOK p → matchCI p s = true →
    matchCI p (collapseGo b s) = true := by
  intro p
  induction p with
  | nil => intro s b _ _; simp [matchCI]
  | cons a p' ih =>
    intro s b hl hm
    match s, hm with
    | c :: cs, hm =>
      simp only [matchCI, Bool.and_eq_true, beq_iff_eq] at hm
      have ha := hl a (by simp)
      have hc := keychar_of_toLower c a.toLower ha.1 ha.2 hm.1.symm
      simp only [collapseGo, hc.2.1]
      simp only [Bool.false_eq_true, if_false, matchCI, Bool.and_eq_true, beq_iff_eq]
      exact ⟨hm.1, ih cs false (fun x hx => hl x (by simp [hx])) hm.2⟩

theorem matchCI_trimJS : ∀ (p s : Str), lowersOK p → matchCI p s = true →
    matchCI p (trimJS s) = true := by
  intro p s hl hm
  match p, hm with
  | [], _ => simp [matchCI]
  | a :: p', hm =>
    match s, hm with
    | c :: cs, hm =>
      have hm' := hm
      simp only [matchCI, Bool.and_eq_true, beq_iff_eq] at hm
      have ha := hl a (by simp)
      have hc := keychar_of_toLower c a.toLower ha.1 ha.2 hm.1.symm
      unfold trimJS
      rw [List.dropWhile_cons, hc.2.1]
      simp only [Bool.false_eq_true, if_false]
      have hsplit := List.takeWhile_append_dropWhile (p := isSpaceJS) (l := (c :: cs).reverse)
      set t := List.dropWhile isSpaceJS (c :: cs).reverse with ht
      set w := List.takeWhile isSpaceJS (c :: cs).reverse with hw
      have hrev : (c :: cs) = t.reverse ++ w.reverse := by
        have : (w ++ t).reverse = ((c :: cs).reverse).reverse := by rw [hsplit]
        simpa [List.reverse_append] using this.symm
      have hwsp : ∀ x ∈ w.reverse, isSpaceJS x = true := by
        intro x hx
        rw [List.mem_reverse] at hx
        exact List.mem_takeWhile_imp hx
      rw [hrev] at hm'
      exact matchCI_of_append_spaces (a :: p') t.reverse w.reverse hl hwsp hm'

theorem matchCI_normSql (p raw : Str) (hl : lowersOK p)
    (hm : matchCI p (trimJS raw) = true) : matchCI p (normSql raw) = true := by
  unfold normSql
  exact matchCI_trimJS p _ hl
    (matchCI_collapseGo p _ false hl
      (matchCI_stripLine p _ hl (matchCI_stripBlock p _ hl hm)))

theorem scanLimit_split : ∀ (s : Str) (prev : Option Char) (acc pre : Str) (v : Nat)
    (rest : Str), scanLimit prev acc s = some (pre, v, rest) →
    ∃ a b, s = a ++ b ∧ pre = acc.reverse ++ a ∧ limitAt b = some (v, rest) ∧
      ((a = [] ∧ boundaryBefore prev = true) ∨ ∃ a0 l, a = a0 ++ [l] ∧ isWordChar l = false) := by
  intro s
  induction s with
  | nil => intro prev acc pre v rest h; simp [scanLimit] at h
  | cons c cs ih =>
    intro prev acc pre v rest h
    rw [scanLimit] at h
    by_cases hb : boundaryBefore prev = true
    · rw [hb] at h
      simp only [if_true] at h
      cases hla : limitAt (c :: cs) with
      | some vr =>
        obtain ⟨v0, r0⟩ := vr
        rw [hla] at h
        simp only [Option.some_inj, Prod.mk.injEq] at h
        obtain ⟨h1, h2, h3⟩ := h
        rw [h2, h3] at hla
        exact ⟨[], c :: cs, by simp, by simp [h1], hla, Or.inl ⟨rfl, hb⟩⟩
      | none =>
        rw [hla] at h
        simp only at h
        obtain ⟨a', b', hs, hpre, hlim, hdisj⟩ := ih (some c) (c :: acc) pre v rest h
        refine ⟨c :: a', b', by simp [hs], ?_, hlim, ?_⟩
        · rw [hpre]; simp
        · rcases hdisj with ⟨ha, hbnd⟩ | ⟨a0, l, ha, hl⟩
          · subst ha
            refine Or.inr ⟨[], c, by simp, ?_⟩
            simpa [boundaryBefore] using hbnd
          · subst ha
            exact Or.inr ⟨c :: a0, l, by simp, hl⟩
    · rw [Bool.not_eq_true] at hb
      rw [hb] at h
      simp only [Bool.false_eq_true, if_false] at h
      obtain ⟨a', b', hs, hpre, hlim, hdisj⟩ := ih (some c) (c :: acc) pre v rest h
      refine ⟨c :: a', b', by simp [hs], ?_, hlim, ?_⟩
      · rw [hpre]; simp
      · rcases hdisj with ⟨ha, hbnd⟩ | ⟨a0, l, ha, hl⟩
        · subst ha
          refine Or.inr ⟨[], c, by simp, ?_⟩
          simpa [boundaryBefore] using hbnd
        · subst ha
          exact Or.inr ⟨c :: a0, l, by simp, hl⟩

theorem limitAt_matchCI {b : Str} {v : Nat} {rest : Str}
    (h : limitAt b = some (v, rest)) : matchCI (str "limit") b = true := by
  unfold limitAt at h
  by_cases hm : matchCI (str "limit") b = true
  · exact hm
  · rw [Bool.not_eq_true] at hm
    rw [hm] at h
    simp at h

theorem matchCI_select_replaceLimit (s : Str)
    (hm : matchCI (str "SELECT") s = true) :
    matchCI (str "SELECT") (replaceLimit s) = true := by
  unfold replaceLimit
  cases hscan : scanLimit none [] s with
  | none => exact hm
  | some x =>
    obtain ⟨pre, v, rest⟩ := x
    show matchCI (str "SELECT") (pre ++ str "LIMIT ?" ++ rest) = true
    obtain ⟨a, b, hs, hpre, hlim, hdisj⟩ := scanLimit_split s none [] pre v rest hscan
    simp only [List.reverse_nil, List.nil_append] at hpre
    subst hpre
    rcases hdisj with ⟨ha, _⟩ | ⟨a0, l, ha, hl⟩
    · subst ha
      simp only [List.nil_append] at hs
      subst hs
      have hlm := limitAt_matchCI hlim
      match s, hm, hlm with
      | c0 :: b2, hm, hlm =>
        simp only [matchCI, Bool.and_eq_true, beq_iff_eq] at hm hlm
        exact absurd (hm.1.trans hlm.1.symm) (by decide)
    · have hamatch : pre = s.take pre.length := by
        rw [hs, List.take_left]
      by_cases hlen : pre.length < 6
      · exfalso
        have hmem6 : l ∈ s.take 6 := by
          have h1 : l ∈ pre := by rw [ha]; simp
          have h2 : pre = (s.take 6).take pre.length := by
            rw [List.take_take]
            have hmin : min pre.length 6 = pre.length := by omega
            rw [hmin]
            exact hamatch
          rw [h2] at h1
          exact List.mem_of_mem_take h1
        have hlow : lowersOK (str "SELECT") := by unfold lowersOK; decide
        have hkc := matchCI_keychar (str "SELECT") s hlow hm l (by simpa using hmem6)
        exact absurd hkc.1 (by simp [hl])
      · have h6 : 6 ≤ pre.length := by omega
        have hma : matchCI (str "SELECT") pre = true := by
          rw [hamatch]
          exact matchCI_take (str "SELECT") s pre.length hm (by simpa using h6)
        rw [List.append_assoc]
        exact matchCI_append_of_le (str "SELECT") pre _ hma (by simpa using h6)

/-! ### Sanitizer and generator lemmas -/

theorem sanitizeSql_rejects (cfg : SanitizeCfg) (s kw : Str) (hk : kw ∈ cfg.forbidden)
    (hc : containsWordCI kw (trimJS s) = true) :
    ∃ m, sanitizeSql cfg s = .error m := by
  unfold sanitizeSql
  cases hf : cfg.forbidden.find? (fun k => containsWordCI k (trimJS s)) with
  | some k =>
    refine ⟨cfg.kwErrPrefix ++ k, ?_⟩
    simp only [hf]
  | none =>
    exact absurd hc (by simpa using List.find?_eq_none.mp hf kw hk)

theorem sanitizeSql_ok (cfg : SanitizeCfg) (raw t : Str) (v : Nat)
    (h : sanitizeSql cfg raw = .ok (t, v)) :
    (∀ kw ∈ cfg.forbidden, containsWordCI kw (trimJS raw) = false) ∧
    startsWithCI (str "SELECT") (trimJS raw) = true ∧
    (t = normSql raw ∨ t = replaceLimit (normSql raw)) ∧
    v = (match findLimitVal (normSql raw) with
         | some n => min n 100
         | none => 0) := by
  unfold sanitizeSql at h
  cases hf : cfg.forbidden.find? (fun k => containsWordCI k (trimJS raw)) with
  | some k =>
    simp only [hf] at h
    exact Except.noConfusion h
  | none =>
    simp only [hf] at h
    by_cases hsel : startsWithCI (str "SELECT") (trimJS raw) = true
    · rw [hsel] at h
      simp only [Bool.not_true, Bool.false_eq_true, if_false] at h
      refine ⟨?_, hsel, ?_⟩
      · intro kw hkw
        have := List.find?_eq_none.mp hf kw hkw
        simpa using this
      · rw [Except.ok.injEq, Prod.mk.injEq] at h
        obtain ⟨ht, hv⟩ := h
        constructor
        · rw [← ht]
          split
          · exact Or.inr rfl
          · exact Or.inl rfl
        · rw [← hv]
          rfl
    · rw [Bool.not_eq_true] at hsel
      rw [hsel] at h
      simp at h

theorem validateAndSanitize_success (cfg : SanitizeCfg) (p : ParsedPlan) (r : QueryPlan)
    (he : validateAndSanitize cfg p = r) (hs : r.successStatus = true) :
    ∃ raw, p.sql = some raw ∧ sanitizeSql cfg raw = .ok (r.sql, r.limit) := by
  obtain ⟨sql?, expl?, al?, st?, sr?⟩ := p
  unfold validateAndSanitize at he
  match sql?, expl?, al?, st? with
  | none, _, _, _ =>
    rw [← he] at hs
    simp [buildFallbackQueryPlan] at hs
  | some sqlRaw, none, _, _ =>
    rw [← he] at hs
    simp [buildFallbackQueryPlan] at hs
  | some sqlRaw, some expl, none, _ =>
    rw [← he] at hs
    simp [buildFallbackQueryPlan] at hs
  | some sqlRaw, some expl, some al, none =>
    rw [← he] at hs
    simp [buildFallbackQueryPlan] at hs
  | some sqlRaw, some expl, some al, some st =>
    simp only at he
    by_cases hemp : sqlRaw.isEmpty = true
    · rw [if_pos hemp] at he
      rw [← he] at hs
      simp [buildFallbackQueryPlan] at hs
    · rw [if_neg hemp] at he
      by_cases hearly : (decide (st = false) && decide (sr? = some false)) = true
      · rw [if_pos hearly] at he
        rw [← he] at hs
        simp at hs
      · rw [if_neg hearly] at he
        cases hok : sanitizeSql cfg sqlRaw with
        | error m =>
          rw [hok] at he
          rw [← he] at hs
          simp [buildFallbackQueryPlan] at hs
        | ok tv =>
          obtain ⟨t2, v2⟩ := tv
          rw [hok] at he
          refine ⟨sqlRaw, rfl, ?_⟩
          rw [← he]
          exact hok

theorem genAttempts_success (cfg : SanitizeCfg) (responses : Nat → Except Str ParsedPlan) :
    ∀ (fuel attempt : Nat) (r : QueryPlan), genAttempts cfg responses fuel attempt = r →
    r.successStatus = true →
    ∃ p, (∃ i, responses i = .ok p) ∧ validateAndSanitize cfg p = r := by
  intro fuel
  induction fuel with
  | zero =>
    intro attempt r he hs
    rw [genAttempts] at he
    rw [← he] at hs
    simp [buildFallbackQueryPlan] at hs
  | succ fuel ih =>
    intro attempt r he hs
    rw [genAttempts] at he
    cases hres : responses attempt with
    | error msg =>
      rw [hres] at he
      simp only at he
      by_cases hmax : attempt = MAX_RETRIES
      · rw [if_pos hmax] at he
        rw [← he] at hs
        simp [buildFallbackQueryPlan] at hs
      · rw [if_neg hmax] at he
        exact ih (attempt + 1) r he hs
    | ok p =>
      rw [hres] at he
      simp only at he
      by_cases hok : (validateAndSanitize cfg p).successStatus = true
      · rw [if_pos hok] at he
        exact ⟨p, ⟨attempt, hres⟩, he⟩
      · rw [if_neg hok] at he
        by_cases hretry : (validateAndSanitize cfg p).shouldRetry = true
        · rw [hretry] at he
          simp only [Bool.not_true, Bool.false_eq_true, if_false] at he
          exact ih (attempt + 1) r he hs
        · rw [Bool.not_eq_true] at hretry
          rw [hretry] at he
          simp only [Bool.not_false, if_true] at he
          rw [← he] at hs
          exact absurd hs hok

/-- A structurally valid response whose sql the sanitizer rejects turns
into the retryable validation fallback. -/
theorem validateAndSanitize_rejected (cfg : SanitizeCfg) (p : ParsedPlan) (s m : Str)
    (hsql : p.sql = some s) (hne : s.isEmpty = false) (hexp : p.explanation.isSome)
    (hal : p.allowsLimit.isSome) (hst : p.successStatus = some true)
    (herr : sanitizeSql cfg s = .error m) :
    validateAndSanitize cfg p =
      buildFallbackQueryPlan cfg (str "Validation failed: " ++ m) true := by
  obtain ⟨sql?, expl?, al?, st?, sr?⟩ := p
  simp only at hsql hexp hal hst
  subst hsql
  subst hst
  match expl?, hexp with
  | some expl, _ =>
    match al?, hal with
    | some al, _ =>
      unfold validateAndSanitize
      simp only [hne]
      rw [if_neg (by simp)]
      rw [if_neg (by simp)]
      rw [herr]
  | none, hal => simp at hal

theorem genAttempts_rejected (cfg : SanitizeCfg) (responses : Nat → Except Str ParsedPlan)
    (h : ∀ i, ∃ p, responses i = .ok p ∧ p.successStatus = some true ∧
      (∃ s, p.sql = some s ∧ s.isEmpty = false ∧ ∃ m, sanitizeSql cfg s = .error m) ∧
      p.explanation.isSome ∧ p.allowsLimit.isSome) :
    ∀ (fuel attempt : Nat), genAttempts cfg responses fuel attempt =
      buildFallbackQueryPlan cfg (str "Internal error: No valid plan generated.") false := by
  intro fuel
  induction fuel with
  | zero => intro attempt; rw [genAttempts]
  | succ fuel ih =>
    intro attempt
    obtain ⟨p, hres, hst, ⟨s, hsql, hne, m, herr⟩, hexp, hal⟩ := h attempt
    rw [genAttempts, hres]
    simp only
    have hv := validateAndSanitize_rejected cfg p s m hsql hne hexp hal hst herr
    rw [hv]
    rw [if_neg (by simp [buildFallbackQueryPlan])]
    rw [if_neg (by simp [buildFallbackQueryPlan])]
    exact ih (attempt + 1)

/-! ### Claim C1 -/

/-- A model response declaring failure while carrying unchecked sql. -/
def passThroughPlan : ParsedPlan :=
  { sql := some (str "DROP TABLE x"), explanation := some (str "model explanation")
  , allowsLimit := some false, successStatus := some false, shouldRetry := some false }

/-- C1 counterexample: when the model declares successStatus false with
shouldRetry false, validateAndSanitize passes its sql through without
any check and generateQueryPlan surfaces that plan to the caller; the
surfaced sql does not start with SELECT and contains the forbidden
keyword DROP as a whole word. -/
theorem C1_counterexample :
    (generateQueryPlan entCfg (fun _ => .ok passThroughPlan)).sql = str "DROP TABLE x" ∧
    startsWithCI (str "SELECT")
      (generateQueryPlan entCfg (fun _ => .ok passThroughPlan)).sql = false ∧
    containsWordCI (str "DROP")
      (generateQueryPlan entCfg (fun _ => .ok passThroughPlan)).sql = true := by
  refine ⟨?_, ?_, ?_⟩ <;> decide

/-- C1 (amended): every QueryPlan returned by generateQueryPlan (either
variant) with successStatus true has a sql that starts with SELECT
(case-insensitive) and is the comment-stripped whitespace-collapsed
form of a raw sql (possibly with its limit literal replaced) whose
trimmed text passed the forbidden-keyword scan and the SELECT prefix
check; plans returned through the declared-failure pass-through carry
the model sql unchecked, and keyword freedom is only enforced on the
raw text before comment stripping. -/
theorem C1_success_plans (cfg : SanitizeCfg) (responses : Nat → Except Str ParsedPlan)
    (h : (generateQueryPlan cfg responses).successStatus = true) :
    startsWithCI (str "SELECT") (generateQueryPlan cfg responses).sql = true ∧
    ∃ raw, (∀ kw ∈ cfg.forbidden, containsWordCI kw (trimJS raw) = false) ∧
      startsWithCI (str "SELECT") (trimJS raw) = true ∧
      ((generateQueryPlan cfg responses).sql = normSql raw ∨
        (generateQueryPlan cfg responses).sql = replaceLimit (normSql raw)) := by
  obtain ⟨p, ⟨i, hi⟩, hv⟩ :=
    genAttempts_success cfg responses (MAX_RETRIES + 1) 0 (generateQueryPlan cfg responses)
      rfl h
  obtain ⟨raw, hraw, hok⟩ :=
    validateAndSanitize_success cfg p (generateQueryPlan cfg responses) hv h
  obtain ⟨hkw, hsel, hforms, hval⟩ :=
    sanitizeSql_ok cfg raw (generateQueryPlan cfg responses).sql
      (generateQueryPlan cfg responses).limit hok
  have hlow : lowersOK (str "SELECT") := by unfold lowersOK; decide
  have hnorm : matchCI (str "SELECT") (normSql raw) = true :=
    matchCI_normSql (str "SELECT") raw hlow hsel
  refine ⟨?_, raw, hkw, hsel, hforms⟩
  rcases hforms with hf | hf
  · rw [hf]; exact hnorm
  · rw [hf]; exact matchCI_select_replaceLimit (normSql raw) hnorm

/-- C1 witness: a plan accepted on the first attempt satisfies the
amended invariant. -/
def selectPlan : ParsedPlan :=
  { sql := some (str "SELECT name FROM entity"), explanation := some (str "lists names")
  , allowsLimit := some true, successStatus := some true, shouldRetry := some false }

theorem C1_witness :
    (generateQueryPlan entCfg (fun _ => .ok selectPlan)).successStatus = true ∧
    (startsWithCI (str "SELECT")
        (generateQueryPlan entCfg (fun _ => .ok selectPlan)).sql = true ∧
      ∃ raw, (∀ kw ∈ entCfg.forbidden, containsWordCI kw (trimJS raw) = false) ∧
        startsWithCI (str "SELECT") (trimJS raw) = true ∧
        ((generateQueryPlan entCfg (fun _ => .ok selectPlan)).sql = normSql raw ∨
          (generateQueryPlan entCfg (fun _ => .ok selectPlan)).sql =
            replaceLimit (normSql raw))) :=
  ⟨by decide, C1_success_plans entCfg (fun _ => .ok selectPlan) (by decide)⟩

/-! ### Claim C3 -/

/-- A structurally valid DMS response whose sql contains GRANT as a
whole word. -/
def grantPlan : ParsedPlan :=
  { sql := some (str "SELECT grant FROM t"), explanation := some (str "reads grant column")
  , allowsLimit := some true, successStatus := some true, shouldRetry := some false }

/-- C3 counterexample: the DMS sanitizer accepts a query containing the
forbidden keyword GRANT as a whole word (its forbidden list stops at
TRUNCATE), returning a successful plan instead of rejecting. -/
theorem C3_counterexample :
    containsWordCI (str "GRANT") (str "SELECT grant FROM t") = true ∧
    (validateAndSanitize dmsCfg grantPlan).successStatus = true ∧
    (validateAndSanitize dmsCfg grantPlan).sql = str "SELECT grant FROM t" := by
  refine ⟨?_, ?_, ?_⟩ <;> decide

/-- C3 (amended): the entities sanitizer rejects any candidate whose
trimmed text contains one of its ten keywords as a whole word,
regardless of case or surrounding validity; the DMS sanitizer does the
same only for its seven keywords (UPDATE, DELETE, INSERT, DROP, ALTER,
CREATE, TRUNCATE) and accepts otherwise valid queries containing
RENAME, GRANT or REVOKE. -/
theorem C3_keyword_rejection (s kw : Str) :
    (kw ∈ forbiddenEnt → containsWordCI kw (trimJS s) = true →
      ∃ m, sanitizeSql entCfg s = .error m) ∧
    (kw ∈ forbiddenDMS → containsWordCI kw (trimJS s) = true →
      ∃ m, sanitizeSql dmsCfg s = .error m) ∧
    (sanitizeSql dmsCfg (str "SELECT rename FROM t")).isOk = true ∧
    (sanitizeSql dmsCfg (str "SELECT grant FROM t")).isOk = true ∧
    (sanitizeSql dmsCfg (str "SELECT revoke FROM t")).isOk = true := by
  refine ⟨fun hk hc => sanitizeSql_rejects entCfg s kw hk hc,
    fun hk hc => sanitizeSql_rejects dmsCfg s kw hk hc, ?_, ?_, ?_⟩ <;> decide

theorem C3_witness :
    (str "GRANT") ∈ forbiddenEnt ∧
    containsWordCI (str "GRANT") (trimJS (str "SELECT grant FROM t")) = true ∧
    (∃ m, sanitizeSql entCfg (str "SELECT grant FROM t") = .error m) :=
  ⟨by decide, by decide,
    (C3_keyword_rejection (str "SELECT grant FROM t") (str "GRANT")).1 (by decide)
      (by decide)⟩

/-! ### Claim C4 -/

/-- C4 counterexample: on the entities variant, a query with a literal
LIMIT 200 is accepted with its literal intact (no placeholder is ever
introduced, the clamp guard being unsatisfiable) and the returned limit
is the post-clamp value 100, not the detected pre-clamp 200. -/
theorem C4_counterexample :
    findLimitVal (str "SELECT x FROM t LIMIT 200") = some 200 ∧
    sanitizeSql entCfg (str "SELECT x FROM t LIMIT 200") =
      .ok (str "SELECT x FROM t LIMIT 200", 100) := by
  refine ⟨?_, ?_⟩ <;> decide

/-- C4 (amended): on an accepted sql, the returned limit is the clamped
value min n 100 of any detected literal (0 when none); the entities
variant never replaces the literal with the placeholder (its guard
compares the already clamped value against 100), while the DMS variant
replaces the first literal with LIMIT-placeholder whenever one is
present; when no literal limit is present both variants return 0 and
leave the normalized sql without any introduced placeholder. -/
theorem C4_limit_clamping (s : Str) :
    (∀ t v, sanitizeSql entCfg s = .ok (t, v) →
      t = normSql s ∧
      v = (match findLimitVal (normSql s) with
           | some n => min n 100
           | none => 0)) ∧
    (∀ t v, sanitizeSql dmsCfg s = .ok (t, v) →
      (match findLimitVal (normSql s) with
       | some n => t = replaceLimit (normSql s) ∧ v = min n 100
       | none => t = normSql s ∧ v = 0)) := by
  constructor
  · intro t v h
    unfold sanitizeSql at h
    cases hf : entCfg.forbidden.find? (fun k => containsWordCI k (trimJS s)) with
    | some k =>
      simp only [hf] at h
      exact Except.noConfusion h
    | none =>
      simp only [hf] at h
      by_cases hsel : startsWithCI (str "SELECT") (trimJS s) = true
      · rw [hsel] at h
        simp only [Bool.not_true, Bool.false_eq_true, if_false] at h
        cases hlv : findLimitVal (normSql s) with
        | some n =>
          rw [show trimJS (collapseWs (stripLine (stripBlock (trimJS s)))) = normSql s
              from rfl, hlv] at h
          have hle : ¬ (min n 100 > 100) := by omega
          simp only [entCfg, Bool.false_and, Bool.or_false, decide_eq_true_eq,
            if_neg hle] at h
          rw [Except.ok.injEq, Prod.mk.injEq] at h
          exact ⟨h.1.symm, h.2.symm⟩
        | none =>
          rw [show trimJS (collapseWs (stripLine (stripBlock (trimJS s)))) = normSql s
              from rfl, hlv] at h
          simp only [entCfg, Bool.false_and, Bool.or_false, decide_eq_true_eq,
            Option.isSome_none, Bool.and_false, gt_iff_lt, if_neg (by omega : ¬ (100 < 0))] at h
          rw [Except.ok.injEq, Prod.mk.injEq] at h
          exact ⟨h.1.symm, h.2.symm⟩
      · rw [Bool.not_eq_true] at hsel
        rw [hsel] at h
        simp at h
  · intro t v h
    unfold sanitizeSql at h
    cases hf : dmsCfg.forbidden.find? (fun k => containsWordCI k (trimJS s)) with
    | some k =>
      simp only [hf] at h
      exact Except.noConfusion h
    | none =>
      simp only [hf] at h
      by_cases hsel : startsWithCI (str "SELECT") (trimJS s) = true
      · rw [hsel] at h
        simp only [Bool.not_true, Bool.false_eq_true, if_false] at h
        cases hlv : findLimitVal (normSql s) with
        | some n =>
          rw [show trimJS (collapseWs (stripLine (stripBlock (trimJS s)))) = normSql s
              from rfl, hlv] at h
          simp only [dmsCfg, Option.isSome_some, Bool.true_and, Bool.or_true,
            if_true] at h
          rw [Except.ok.injEq, Prod.mk.injEq] at h
          exact ⟨h.1.symm, h.2.symm⟩
        | none =>
          rw [show trimJS (collapseWs (stripLine (stripBlock (trimJS s)))) = normSql s
              from rfl, hlv] at h
          simp only [dmsCfg, Option.isSome_none, Bool.true_and, Bool.and_false,
            Bool.or_false, gt_iff_lt, decide_eq_true_eq, if_neg (by omega : ¬ (100 < 0))] at h
          rw [Except.ok.injEq, Prod.mk.injEq] at h
          exact ⟨h.1.symm, h.2.symm⟩
      · rw [Bool.not_eq_true] at hsel
        rw [hsel] at h
        simp at h

theorem C4_witness :
    (sanitizeSql entCfg (str "SELECT x FROM t LIMIT 5") =
        .ok (str "SELECT x FROM t LIMIT 5", 5) ∧
      (str "SELECT x FROM t LIMIT 5" = normSql (str "SELECT x FROM t LIMIT 5") ∧
        5 = (match findLimitVal (normSql (str "SELECT x FROM t LIMIT 5")) with
             | some n => min n 100
             | none => 0))) ∧
    (sanitizeSql dmsCfg (str "SELECT x FROM t LIMIT 5") =
        .ok (str "SELECT x FROM t LIMIT ?", 5) ∧
      (match findLimitVal (normSql (str "SELECT x FROM t LIMIT 5")) with
       | some n => str "SELECT x FROM t LIMIT ?" =
            replaceLimit (normSql (str "SELECT x FROM t LIMIT 5")) ∧ 5 = min n 100
       | none => str "SELECT x FROM t LIMIT ?" =
            normSql (str "SELECT x FROM t LIMIT 5") ∧ 5 = 0)) :=
  ⟨⟨by decide,
    (C4_limit_clamping (str "SELECT x FROM t LIMIT 5")).1
      (str "SELECT x FROM t LIMIT 5") 5 (by decide)⟩,
   ⟨by decide,
    (C4_limit_clamping (str "SELECT x FROM t LIMIT 5")).2
      (str "SELECT x FROM t LIMIT ?") 5 (by decide)⟩⟩

/-! ### Claim C8 -/

/-- C8: when every model response is structurally valid, declares
successStatus true, and carries sql the sanitizer rejects, the
generator retries internally and, after exhausting its attempts,
returns the terminal fallback plan with successStatus false and
shouldRetry false rather than raising an error. -/
theorem C8_terminal_fallback (cfg : SanitizeCfg) (responses : Nat → Except Str ParsedPlan)
    (h : ∀ i, ∃ p, responses i = .ok p ∧ p.successStatus = some true ∧
      (∃ s, p.sql = some s ∧ s.isEmpty = false ∧ ∃ m, sanitizeSql cfg s = .error m) ∧
      p.explanation.isSome ∧ p.allowsLimit.isSome) :
    generateQueryPlan cfg responses =
      buildFallbackQueryPlan cfg (str "Internal error: No valid plan generated.") false ∧
    (generateQueryPlan cfg responses).successStatus = false ∧
    (generateQueryPlan cfg responses).shouldRetry = false := by
  have he := genAttempts_rejected cfg responses h (MAX_RETRIES + 1) 0
  refine ⟨he, ?_, ?_⟩ <;> rw [show generateQueryPlan cfg responses =
    genAttempts cfg responses (MAX_RETRIES + 1) 0 from rfl, he] <;> rfl

/-- A structurally valid response carrying rejected sql, as in the
specification scenario. -/
def dropTablePlan : ParsedPlan :=
  { sql := some (str "DROP TABLE x"), explanation := some (str "drops the table")
  , allowsLimit := some false, successStatus := some true, shouldRetry := some false }

theorem C8_witness :
    generateQueryPlan entCfg (fun _ => .ok dropTablePlan) =
      buildFallbackQueryPlan entCfg (str "Internal error: No valid plan generated.")
        false ∧
    (generateQueryPlan entCfg (fun _ => .ok dropTablePlan)).successStatus = false ∧
    (generateQueryPlan entCfg (fun _ => .ok dropTablePlan)).shouldRetry = false :=
  C8_terminal_fallback entCfg (fun _ => .ok dropTablePlan)
    (fun _ => ⟨dropTablePlan, rfl, rfl,
      ⟨str "DROP TABLE x", rfl, by decide,
        ⟨str "Forbidden keyword detected: " ++ str "DROP", by decide⟩⟩,
      by decide, by decide⟩)

/-! ### Claim C5 -/

theorem runCorrectionLoop_spec (execs : Nat → Option Str) (regens : Nat → QueryPlan)
    (limitParam : Option Nat) :
    ∀ (remaining : Nat) (plan : QueryPlan) (finalSql : Str) (execIdx : Nat)
      (log : List CorrectionFeedback) (r : LoopResult),
      runCorrectionLoop execs regens limitParam remaining plan finalSql execIdx log = r →
      execIdx + 1 ≤ r.execCount ∧ r.execCount ≤ execIdx + remaining + 1 ∧
      r.feedback.map (fun f => f.error) =
        log.map (fun f => f.error) ++
          (List.range' execIdx (r.execCount - execIdx)).filterMap execs ∧
      r.feedback.length =
        log.length + (r.execCount - execIdx) - (if r.success then 1 else 0) := by
  intro remaining
  induction remaining with
  | zero =>
    intro plan finalSql execIdx log r he
    rw [runCorrectionLoop.eq_def] at he
    cases hexec : execs execIdx with
    | none =>
      rw [hexec] at he
      simp only at he
      subst he
      refine ⟨by simp, by simp, ?_, by simp⟩
      simp [hexec]
    | some err =>
      rw [hexec] at he
      simp only at he
      subst he
      refine ⟨by simp, by simp, ?_, by simp⟩
      simp [hexec]
  | succ rem ih =>
    intro plan finalSql execIdx log r he
    rw [runCorrectionLoop.eq_def] at he
    cases hexec : execs execIdx with
    | none =>
      rw [hexec] at he
      simp only at he
      subst he
      refine ⟨by simp, by simp, ?_, by simp⟩
      simp [hexec]
    | some err =>
      rw [hexec] at he
      simp only at he
      by_cases hcp : (regens execIdx).successStatus = false
      · rw [if_pos hcp] at he
        subst he
        refine ⟨by simp, by simp, ?_, by simp⟩
        simp [hexec]
      · rw [if_neg hcp] at he
        obtain ⟨h1, h2, h3, h4⟩ := ih (regens execIdx) (regens execIdx).sql (execIdx + 1)
          (log ++ [{ sql := finalSql, error := err }]) r he
        refine ⟨by omega, by omega, ?_, ?_⟩
        · rw [h3]
          have hcount : r.execCount - execIdx = (r.execCount - (execIdx + 1)) + 1 := by
            omega
          rw [hcount, List.range'_succ, List.filterMap_cons, hexec]
          simp
        · rw [h4]
          simp only [List.length_append, List.length_cons, List.length_nil]
          omega

/-- C5: in every run of the correction loop the number of SQL execution
attempts is at most MAX_CORRECTION_ATTEMPTS plus one (three); the
error feedback log returned to the caller, on success or terminal
failure, holds exactly the diagnostics of the failed attempts, in
oldest-first order, never discarded (its error projection equals the
failing prefix of the execution oracle), so its length is the number
of failed attempts. -/
theorem C5_attempts_and_feedback (execs : Nat → Option Str) (regens : Nat → QueryPlan)
    (limitParam : Option Nat) (initialPlan : QueryPlan) (r : LoopResult)
    (he : naturalLanguageQueryLoop execs regens limitParam initialPlan = r) :
    r.execCount ≤ MAX_CORRECTION_ATTEMPTS + 1 ∧
    r.feedback.map (fun f => f.error) = (List.range r.execCount).filterMap execs ∧
    r.feedback.length = r.execCount - (if r.success then 1 else 0) := by
  obtain ⟨h1, h2, h3, h4⟩ := runCorrectionLoop_spec execs regens limitParam
    MAX_CORRECTION_ATTEMPTS initialPlan initialPlan.sql 0 [] r he
  refine ⟨by simpa using h2, ?_, by simpa using h4⟩
  rw [List.range_eq_range']
  simpa using h3

theorem C5_witness :
    (naturalLanguageQueryLoop (fun i => if i < 3 then some (str "bad column") else none)
        (fun _ => validateAndSanitize entCfg selectPlan) none
        (validateAndSanitize entCfg selectPlan)).execCount ≤ MAX_CORRECTION_ATTEMPTS + 1 ∧
    (naturalLanguageQueryLoop (fun i => if i < 3 then some (str "bad column") else none)
        (fun _ => validateAndSanitize entCfg selectPlan) none
        (validateAndSanitize entCfg selectPlan)).feedback.map (fun f => f.error) =
      (List.range (naturalLanguageQueryLoop
          (fun i => if i < 3 then some (str "bad column") else none)
          (fun _ => validateAndSanitize entCfg selectPlan) none
          (validateAndSanitize entCfg selectPlan)).execCount).filterMap
        (fun i => if i < 3 then some (str "bad column") else none) ∧
    (naturalLanguageQueryLoop (fun i => if i < 3 then some (str "bad column") else none)
        (fun _ => validateAndSanitize entCfg selectPlan) none
        (validateAndSanitize entCfg selectPlan)).feedback.length =
      (naturalLanguageQueryLoop (fun i => if i < 3 then some (str "bad column") else none)
          (fun _ => validateAndSanitize entCfg selectPlan) none
          (validateAndSanitize entCfg selectPlan)).execCount -
        (if (naturalLanguageQueryLoop (fun i => if i < 3 then some (str "bad column") else none)
            (fun _ => validateAndSanitize entCfg selectPlan) none
            (validateAndSanitize entCfg selectPlan)).success then 1 else 0) :=
  C5_attempts_and_feedback (fun i => if i < 3 then some (str "bad column") else none)
    (fun _ => validateAndSanitize entCfg selectPlan) none
    (validateAndSanitize entCfg selectPlan) _ rfl

/-! ### Claim C6 -/

theorem chunkGo_zero_size (fuel : Nat) (l : List α) : chunkGo fuel 0 l = [] := by
  rw [chunkGo.eq_def]
  split <;> simp_all

theorem chunkGo_succ (fuel size : Nat) (l : List α) (hs : size ≠ 0) :
    chunkGo (fuel + 1) size l =
      if l.isEmpty then [] else l.take size :: chunkGo fuel size (l.drop size) := by
  match size, hs with
  | s + 1, _ =>
    rw [chunkGo]
    omega

theorem chunkGo_fuel_zero (size : Nat) (l : List α) (hl : l.length ≤ 0) :
    chunkGo 0 size l = [] := by
  match l, hl with
  | [], _ =>
    rw [chunkGo.eq_def]
    split <;> simp_all

theorem chunkGo_flatten : ∀ (fuel size : Nat) (l : List α), size ≠ 0 → l.length ≤ fuel →
    (chunkGo fuel size l).flatten = l := by
  intro fuel
  induction fuel with
  | zero =>
    intro size l hs hl
    match l, hl with
    | [], _ => rw [chunkGo_fuel_zero size [] (by simp)]; rfl
  | succ fuel ih =>
    intro size l hs hl
    rw [chunkGo_succ fuel size l hs]
    by_cases he : l.isEmpty
    · rw [if_pos he]
      rw [List.isEmpty_iff] at he
      simp [he]
    · rw [if_neg he]
      rw [List.isEmpty_iff] at he
      have hlen : (l.drop size).length ≤ fuel := by
        simp only [List.length_drop]
        have : l.length ≠ 0 := by simpa using he
        omega
      simp only [List.flatten_cons, ih size (l.drop size) hs hlen,
        List.take_append_drop]

theorem chunkGo_length : ∀ (fuel size : Nat) (l : List α), size ≠ 0 → l.length ≤ fuel →
    (chunkGo fuel size l).length = ceilDiv l.length size := by
  intro fuel
  induction fuel with
  | zero =>
    intro size l hs hl
    match l, hl with
    | [], _ =>
      rw [chunkGo_fuel_zero size [] (by simp)]
      simp only [List.length_nil]
      unfold ceilDiv
      rw [Nat.div_eq_of_lt (by omega)]
  | succ fuel ih =>
    intro size l hs hl
    rw [chunkGo_succ fuel size l hs]
    by_cases he : l.isEmpty
    · rw [if_pos he]
      rw [List.isEmpty_iff] at he
      subst he
      simp only [List.length_nil]
      unfold ceilDiv
      rw [Nat.div_eq_of_lt (by omega)]
    · rw [if_neg he]
      rw [List.isEmpty_iff] at he
      have hpos : 0 < l.length := by
        cases l
        · exact absurd rfl he
        · simp
      have hlen : (l.drop size).length ≤ fuel := by
        simp only [List.length_drop]
        omega
      simp only [List.length_cons, ih size (l.drop size) hs hlen, List.length_drop]
      unfold ceilDiv
      by_cases hle : l.length ≤ size
      · have h0 : l.length - size = 0 := by omega
        rw [h0]
        have hL : (0 + size - 1) / size = 0 := Nat.div_eq_of_lt (by omega)
        have hR : (l.length + size - 1) / size = 1 := Nat.div_eq_of_lt_le (by omega) (by omega)
        rw [hL, hR]
      · have h1 : l.length - size + size - 1 = (l.length - 1 - size) + size := by omega
        have h2 : l.length + size - 1 = (l.length - 1 - size) + size + size := by omega
        rw [h1, h2, Nat.add_div_right _ (by omega), Nat.add_div_right _ (by omega),
          Nat.add_div_right _ (by omega)]

theorem chunk_flatten (size : Nat) (l : List α) (hs : size ≠ 0) :
    (chunk size l).flatten = l :=
  chunkGo_flatten l.length size l hs le_rfl

theorem chunk_length (size : Nat) (l : List α) (hs : size ≠ 0) :
    (chunk size l).length = ceilDiv l.length size :=
  chunkGo_length l.length size l hs le_rfl

theorem calculateChunkCount_pos (rows : List Row) (h : rows ≠ []) :
    1 ≤ calculateChunkCount rows := by
  unfold calculateChunkCount
  rw [if_neg (by simpa using h)]
  omega

theorem ceilDiv_pos (a b : Nat) (ha : 1 ≤ a) (hb : b ≠ 0) : 1 ≤ ceilDiv a b := by
  unfold ceilDiv
  exact (Nat.one_le_div_iff (by omega)).mpr (by omega)

theorem batchSize_pos (rows : List Row) (h : rows ≠ []) :
    ceilDiv rows.length (calculateChunkCount rows) ≠ 0 := by
  have hc := calculateChunkCount_pos rows h
  have hn : 1 ≤ rows.length := by
    cases rows
    · exact absurd rfl h
    · simp
  have h1 := ceilDiv_pos rows.length (calculateChunkCount rows) hn (by omega)
  omega

/-- C6 (amended): for a non-empty row set, the batches are contiguous
order-preserving slices whose in-order concatenation reconstructs the
row sequence exactly, and there is at least one batch; but the number
of batches is ceil(N / ceil(N / C)) where N is the row count and
C = max(1, ceil(serializedBytes/3000)) is calculateChunkCount - the
double rounding can produce fewer than C batches, so the chunk count
does not in general equal ceil(serializedBytes/3000). -/
theorem C6_chunking (rows : List Row) (h : rows ≠ []) :
    (batchesOf rows).flatten = rows ∧
    (batchesOf rows).length =
      ceilDiv rows.length (ceilDiv rows.length (calculateChunkCount rows)) ∧
    1 ≤ (batchesOf rows).length := by
  have hs := batchSize_pos rows h
  have hc := calculateChunkCount_pos rows h
  have hn : 1 ≤ rows.length := by
    cases rows
    · exact absurd rfl h
    · simp
  refine ⟨chunk_flatten _ rows hs, chunk_length _ rows hs, ?_⟩
  unfold batchesOf
  rw [chunk_length _ rows hs]
  exact ceilDiv_pos _ _ hn hs

theorem C6_witness :
    ([[(str "id", JVal.jnum 1)], [(str "id", JVal.jnum 2)]] : List Row) ≠ [] ∧
    ((batchesOf [[(str "id", JVal.jnum 1)], [(str "id", JVal.jnum 2)]]).flatten =
        [[(str "id", JVal.jnum 1)], [(str "id", JVal.jnum 2)]] ∧
      (batchesOf [[(str "id", JVal.jnum 1)], [(str "id", JVal.jnum 2)]]).length =
        ceilDiv 2 (ceilDiv 2
          (calculateChunkCount [[(str "id", JVal.jnum 1)], [(str "id", JVal.jnum 2)]])) ∧
      1 ≤ (batchesOf [[(str "id", JVal.jnum 1)], [(str "id", JVal.jnum 2)]]).length) :=
  ⟨by decide, C6_chunking [[(str "id", JVal.jnum 1)], [(str "id", JVal.jnum 2)]]
    (by decide)⟩

/-- A single row whose serialized form exceeds the 3000-byte ceiling. -/
def bigRow : Row := [(str "a", JVal.jstr (List.replicate 2995 'x'))]

theorem byteLen_append (a b : Str) : byteLen (a ++ b) = byteLen a + byteLen b := by
  simp [byteLen]

theorem byteLen_replicate_x (n : Nat) : byteLen (List.replicate n 'x') = n := by
  have h1 : utf8Size 'x' = 1 := by decide
  simp [byteLen, List.map_replicate, h1, List.sum_replicate]

theorem flatten_replicate_single (n : Nat) (c : Char) :
    (List.replicate n [c]).flatten = List.replicate n c := by
  induction n with
  | zero => simp
  | succ n ih => simp [List.replicate_succ, ih]

theorem stringifyRows_single (r : Row) :
    stringifyRows [r] = str "[" ++ stringifyRow r ++ str "]" := by
  simp [stringifyRows, List.intercalate]

theorem stringifyRow_single (k : Str) (v : JVal) :
    stringifyRow [(k, v)] =
      [obrace] ++ (jsonQuote k ++ str ":" ++ v.stringify) ++ [cbrace] := by
  simp [stringifyRow, List.intercalate]

theorem bigRow_bytes : byteLen (stringifyRows [bigRow]) = 3005 := by
  rw [stringifyRows_single,
    show bigRow = [(str "a", JVal.jstr (List.replicate 2995 'x'))] from rfl,
    stringifyRow_single,
    show JVal.stringify (JVal.jstr (List.replicate 2995 'x')) =
      jsonQuote (List.replicate 2995 'x') from rfl]
  unfold jsonQuote
  rw [List.map_replicate, show escChar 'x' = ['x'] from by decide,
    flatten_replicate_single]
  simp only [byteLen_append, byteLen_replicate_x]
  decide

/-- C6 counterexample: a single row serializing to 3005 bytes. The spec
formula ceil(serializedBytes/3000) gives 2 chunks, but cleanDataBatch
computes batchSize = ceil(1/2) = 1 and the chunk helper then produces
a single batch. -/
theorem C6_counterexample :
    ceilDiv (byteLen (stringifyRows [bigRow])) MAX_BYTES_PER_CHUNK = 2 ∧
    (batchesOf [bigRow]).length = 1 := by
  have hb := bigRow_bytes
  constructor
  · rw [hb]
    decide
  · have hcc : calculateChunkCount [bigRow] = 2 := by
      unfold calculateChunkCount
      rw [if_neg (by decide), hb]
      decide
    unfold batchesOf
    rw [hcc, show ([bigRow] : List Row).length = 1 from rfl,
      show ceilDiv 1 2 = 1 from by decide,
      chunk_length 1 [bigRow] (by decide)]
    decide

/-! ### Claim C7 -/

theorem processGo_all_error (attempts : Nat → Except Unit (List RawResult))
    (batch : List Row) : ∀ (fuel i : Nat),
    (∀ a, i ≤ a → a < i + fuel → attempts a = .error ()) →
    processGo attempts batch fuel i = fallbackBatch batch := by
  intro fuel
  induction fuel with
  | zero => intro i _; rw [processGo]
  | succ fuel ih =>
    intro i h
    rw [processGo]
    rw [h i (by omega) (by omega)]
    exact ih (i + 1) (fun a h1 h2 => h a (by omega) (by omega))

theorem processGo_shape (attempts : Nat → Except Unit (List RawResult))
    (batch : List Row) : ∀ (fuel i : Nat),
    processGo attempts batch fuel i = fallbackBatch batch ∨
    ∃ rs : List RawResult, processGo attempts batch fuel i = rs.map mapRaw := by
  intro fuel
  induction fuel with
  | zero => intro i; exact Or.inl (by rw [processGo])
  | succ fuel ih =>
    intro i
    rw [processGo]
    cases ha : attempts i with
    | ok rs => exact Or.inr ⟨rs, rfl⟩
    | error e => exact ih (i + 1)

/-- C7: a batch whose external call fails on all retry attempts
degrades as a whole: processBatchWithRetry returns exactly the
fallback, which holds one result per row in order (the cleaned
projection reproduces the batch), each marked needsReview and isFailed
with an empty change set and original equal to the unmodified row; and
only such batches are marked, since any result with isFailed true can
only come from a batch that degraded to its own fallback. -/
theorem C7_failed_batch (attempts : Nat → Except Unit (List RawResult))
    (batch : List Row) (h : ∀ a, a < RETRY_ATTEMPTS → attempts a = .error ()) :
    processBatchWithRetry attempts batch = fallbackBatch batch ∧
    (fallbackBatch batch).length = batch.length ∧
    (fallbackBatch batch).map (fun r => r.cleaned) = batch ∧
    (∀ r ∈ fallbackBatch batch, r.needsReview = true ∧ r.isFailed = true ∧
      r.changes = [] ∧ r.original = some r.cleaned) ∧
    (∀ (attempts2 : Nat → Except Unit (List RawResult)) (batch2 : List Row)
      (r : CleanResult), r ∈ processBatchWithRetry attempts2 batch2 →
      r.isFailed = true →
      processBatchWithRetry attempts2 batch2 = fallbackBatch batch2) := by
  have hmapcl : (fallbackBatch batch).map (fun r => r.cleaned) = batch := by
    unfold fallbackBatch
    rw [List.map_map]
    exact List.map_id batch
  refine ⟨?_, by simp [fallbackBatch], hmapcl, ?_, ?_⟩
  · exact processGo_all_error attempts batch RETRY_ATTEMPTS 0
      (fun a h1 h2 => h a (by omega))
  · intro r hr
    unfold fallbackBatch at hr
    rw [List.mem_map] at hr
    obtain ⟨row, _, hrow⟩ := hr
    rw [← hrow]
    exact ⟨rfl, rfl, rfl, rfl⟩
  · intro attempts2 batch2 r hr hfail
    rcases processGo_shape attempts2 batch2 RETRY_ATTEMPTS 0 with hsh | ⟨rs, hsh⟩
    · exact hsh
    · exfalso
      unfold processBatchWithRetry at hr
      rw [hsh] at hr
      rw [List.mem_map] at hr
      obtain ⟨x, _, hx⟩ := hr
      rw [← hx] at hfail
      simp [mapRaw] at hfail

theorem C7_witness :
    processBatchWithRetry (fun _ => .error ()) [[(str "id", JVal.jnum 7)]] =
      fallbackBatch [[(str "id", JVal.jnum 7)]] ∧
    (fallbackBatch [[(str "id", JVal.jnum 7)]]).length =
      ([[(str "id", JVal.jnum 7)]] : List Row).length ∧
    (fallbackBatch [[(str "id", JVal.jnum 7)]]).map (fun r => r.cleaned) =
      [[(str "id", JVal.jnum 7)]] ∧
    (∀ r ∈ fallbackBatch [[(str "id", JVal.jnum 7)]], r.needsReview = true ∧
      r.isFailed = true ∧ r.changes = [] ∧ r.original = some r.cleaned) ∧
    (∀ (attempts2 : Nat → Except Unit (List RawResult)) (batch2 : List Row)
      (r : CleanResult), r ∈ processBatchWithRetry attempts2 batch2 →
      r.isFailed = true →
      processBatchWithRetry attempts2 batch2 = fallbackBatch batch2) :=
  C7_failed_batch (fun _ => .error ()) [[(str "id", JVal.jnum 7)]]
    (fun a _ => rfl)

/-! ### Claim C2 -/

/-- A parsed success item used in the counterexamples. -/
def rawItem : RawResult :=
  { cleaned := some [(str "id", JVal.jnum 1)], changes := some []
  , needsReview := false, suggestions := none }

/-- C2 counterexample: the success path neither checks the number of
returned results nor sets the original field. With one input row and a
model response whose results array is empty, cleanDataBatch returns no
results at all (the row is dropped); with a response of matching
length, the produced CleanResult has no original field rather than the
input row. -/
theorem C2_counterexample :
    cleanDataBatch [[(str "id", JVal.jnum 1)]] (.ok none) (fun _ _ => .ok []) [0] =
      .ok [] ∧
    (0 : Nat) ≠ ([[(str "id", JVal.jnum 1)]] : List Row).length ∧
    cleanDataBatch [[(str "id", JVal.jnum 1)]] (.ok none) (fun _ _ => .ok [rawItem])
        [0] =
      .ok [{ original := none, cleaned := [(str "id", JVal.jnum 1)], changes := []
           , needsReview := false, isFailed := false, suggestions := none }] ∧
    (none : Option Row) ≠ some [(str "id", JVal.jnum 1)] := by
  refine ⟨?_, ?_, ?_, ?_⟩ <;> decide

theorem map_getD_range {β γ : Type} (l : List β) (d : β) (f : β → γ) :
    (List.range l.length).map (fun i => f (l.getD i d)) = l.map f := by
  induction l with
  | nil => simp
  | cons a l ih =>
    rw [List.length_cons, List.range_succ_eq_map]
    simp only [List.map_cons, List.getD_cons_zero, List.map_map]
    have hc : ((fun i => f ((a :: l).getD i d)) ∘ Nat.succ) = fun i => f (l.getD i d) := by
      funext i
      simp [Function.comp, List.getD_cons_succ]
    rw [hc, ih]

/-- C2 (amended): cleanDataBatch returns, per completed batch, that
batch's result block, concatenated in batch completion order; when
every attempt of every batch fails and the batches complete in
admission order, the output is exactly one CleanResult per input row,
the i-th corresponding to the i-th row with original equal to that
row — but in general the success path keeps whatever result list the
model returned (length unchecked, original unset) and concurrent
out-of-order completion permutes the per-batch blocks, so the claimed
per-row slot correspondence does not hold. -/
theorem C2_completion_blocks (rows : List Row) (suggestResp : Except Unit (Option Str))
    (attempts : Nat → Nat → Except Unit (List RawResult)) (order : List Nat)
    (results : List CleanResult)
    (h : cleanDataBatch rows suggestResp attempts order = .ok results) :
    results =
      (if rows.isEmpty then []
       else (order.map (blockOf attempts (batchesOf rows))).flatten) ∧
    ((∀ i a, attempts i a = .error ()) →
      order = List.range (batchesOf rows).length →
      results = fallbackBatch rows) := by
  unfold cleanDataBatch at h
  by_cases hemp : rows.isEmpty
  · rw [if_pos hemp] at h
    rw [Except.ok.injEq] at h
    subst h
    refine ⟨by rw [if_pos hemp], fun _ _ => ?_⟩
    rw [List.isEmpty_iff] at hemp
    subst hemp
    rfl
  · rw [if_neg hemp] at h
    cases hsug : suggestKeyFieldFromRow (rows.headD []) suggestResp with
    | error e =>
      rw [hsug] at h
      exact Except.noConfusion h
    | ok k =>
      rw [hsug] at h
      simp only [Except.ok.injEq] at h
      subst h
      refine ⟨by rw [if_neg hemp], fun hall horder => ?_⟩
      subst horder
      have hblock : ∀ i, blockOf attempts (batchesOf rows) i =
          fallbackBatch ((batchesOf rows).getD i []) := by
        intro i
        unfold blockOf processBatchWithRetry
        exact processGo_all_error (attempts i) _ RETRY_ATTEMPTS 0
          (fun a h1 h2 => hall i a)
      have hrows : rows ≠ [] := by simpa using hemp
      calc ((List.range (batchesOf rows).length).map
              (blockOf attempts (batchesOf rows))).flatten
          = ((List.range (batchesOf rows).length).map
              (fun i => fallbackBatch ((batchesOf rows).getD i []))).flatten := by
            rw [List.map_congr_left (fun i _ => hblock i)]
        _ = ((batchesOf rows).map fallbackBatch).flatten := by
            rw [map_getD_range]
        _ = fallbackBatch (batchesOf rows).flatten := by
            unfold fallbackBatch
            rw [List.map_flatten]
        _ = fallbackBatch rows := by
            unfold batchesOf
            rw [chunk_flatten _ rows (batchSize_pos rows hrows)]

theorem C2_witness :
    cleanDataBatch [[(str "id", JVal.jnum 1)]] (.ok none) (fun _ _ => .error ())
        (List.range (batchesOf [[(str "id", JVal.jnum 1)]]).length) =
      .ok (fallbackBatch [[(str "id", JVal.jnum 1)]]) ∧
    fallbackBatch [[(str "id", JVal.jnum 1)]] =
      (if ([[(str "id", JVal.jnum 1)]] : List Row).isEmpty then []
       else ((List.range (batchesOf [[(str "id", JVal.jnum 1)]]).length).map
          (blockOf (fun _ _ => .error ())
            (batchesOf [[(str "id", JVal.jnum 1)]]))).flatten) ∧
    fallbackBatch [[(str "id", JVal.jnum 1)]] = fallbackBatch [[(str "id", JVal.jnum 1)]] :=
  ⟨by decide,
   (C2_completion_blocks [[(str "id", JVal.jnum 1)]] (.ok none) (fun _ _ => .error ())
      (List.range (batchesOf [[(str "id", JVal.jnum 1)]]).length)
      (fallbackBatch [[(str "id", JVal.jnum 1)]]) (by decide)).1,
   ((C2_completion_blocks [[(str "id", JVal.jnum 1)]] (.ok none) (fun _ _ => .error ())
      (List.range (batchesOf [[(str "id", JVal.jnum 1)]]).length)
      (fallbackBatch [[(str "id", JVal.jnum 1)]]) (by decide)).2
      (fun _ _ => rfl) rfl).symm ▸ rfl⟩

/-! ### Claim C9 -/

/-- A safe (applied) cleanup result used in the C9 statements. -/
def safeRes : CleanResult :=
  { original := some [(str "code", JVal.jnum 1)], cleaned := [(str "code", JVal.jnum 2)]
  , changes := [(str "code", str "normalized value")], needsReview := false
  , isFailed := false, suggestions := none }

/-- C9 counterexample: applyCleanup performs the external key-field
suggestion call even when a key field is supplied - its failure makes
the whole call fail despite the supplied key, and on success the ghost
flag records that the call was made while the supplied key is used. -/
theorem C9_counterexample :
    applyCleanup true [safeRes] (some (str "code")) (.error ()) (fun _ => none) =
      .error () ∧
    applyCleanup true [safeRes] (some (str "code")) (.ok none) (fun _ => none) =
      .ok { updatedCount := 1, errors := [], usedKey := str "code", aiCalled := true } := by
  refine ⟨?_, ?_⟩ <;> decide

/-- C9 (amended): the key-field suggestion call is made on every
applyCleanup run that reaches the key-selection step, regardless of
whether a key field was supplied; a supplied non-empty key field is
used as given (the suggestion result is only consulted when the
supplied key is absent or empty); and a suggestion that is not an
actual column name of the sample row is replaced by the literal id. -/
theorem C9_key_field (modelFound : Bool) (results : List CleanResult)
    (keyField : Option Str) (suggestResp : Except Unit (Option Str))
    (updates : Nat → Option Str) (out : ApplyOutcome)
    (h : applyCleanup modelFound results keyField suggestResp updates = .ok out) :
    out.aiCalled = true ∧
    (∀ k, keyField = some k → k.isEmpty = false → out.usedKey = k) ∧
    (∀ (row : Row) (content : Str),
      ((row.map Prod.fst).contains
        ((trimJS content).filter (fun c => !(c.toNat == 34 || c.toNat == 39)))) = false →
      suggestKeyFieldFromRow row (.ok (some content)) = .ok (str "id")) := by
  refine ⟨?_, ?_, ?_⟩
  · unfold applyCleanup at h
    by_cases hm : modelFound
    · rw [hm] at h
      simp only [Bool.not_true, Bool.false_eq_true, if_false] at h
      cases hsafe : safeResults results with
      | nil =>
        rw [hsafe] at h
        exact Except.noConfusion h
      | cons r0 rest =>
        rw [hsafe] at h
        simp only at h
        cases ho : r0.original with
        | none =>
          rw [ho] at h
          exact Except.noConfusion h
        | some row0 =>
          rw [ho] at h
          simp only at h
          cases hsug : suggestKeyFieldFromRow row0 suggestResp with
          | error e =>
            rw [hsug] at h
            exact Except.noConfusion h
          | ok suggested =>
            rw [hsug] at h
            simp only at h
            split at h
            · exact Except.noConfusion h
            · rw [Except.ok.injEq] at h
              rw [← h]
    · rw [Bool.not_eq_true] at hm
      rw [hm] at h
      exact Except.noConfusion h
  · intro k hk hke
    subst hk
    unfold applyCleanup at h
    by_cases hm : modelFound
    · rw [hm] at h
      simp only [Bool.not_true, Bool.false_eq_true, if_false] at h
      cases hsafe : safeResults results with
      | nil =>
        rw [hsafe] at h
        exact Except.noConfusion h
      | cons r0 rest =>
        rw [hsafe] at h
        simp only at h
        cases ho : r0.original with
        | none =>
          rw [ho] at h
          exact Except.noConfusion h
        | some row0 =>
          rw [ho] at h
          simp only at h
          cases hsug : suggestKeyFieldFromRow row0 suggestResp with
          | error e =>
            rw [hsug] at h
            exact Except.noConfusion h
          | ok suggested =>
            rw [hsug] at h
            simp only [hke, Bool.false_eq_true, if_false] at h
            rw [Except.ok.injEq] at h
            rw [← h]
    · rw [Bool.not_eq_true] at hm
      rw [hm] at h
      exact Except.noConfusion h
  · intro row content hc
    unfold suggestKeyFieldFromRow
    simp only [hc, Bool.not_false, Bool.or_true, if_true]

theorem C9_witness :
    (applyCleanup true [safeRes] (some (str "code")) (.ok none) (fun _ => none) =
        .ok { updatedCount := 1, errors := [], usedKey := str "code"
            , aiCalled := true }) ∧
    ({ updatedCount := 1, errors := [], usedKey := str "code"
     , aiCalled := true } : ApplyOutcome).aiCalled = true ∧
    (∀ k, (some (str "code") : Option Str) = some k → k.isEmpty = false →
      ({ updatedCount := 1, errors := [], usedKey := str "code"
       , aiCalled := true } : ApplyOutcome).usedKey = k) ∧
    (∀ (row : Row) (content : Str),
      ((row.map Prod.fst).contains
        ((trimJS content).filter (fun c => !(c.toNat == 34 || c.toNat == 39)))) = false →
      suggestKeyFieldFromRow row (.ok (some content)) = .ok (str "id")) :=
  ⟨by decide,
    C9_key_field true [safeRes] (some (str "code")) (.ok none) (fun _ => none)
      { updatedCount := 1, errors := [], usedKey := str "code", aiCalled := true }
      (by decide)⟩

/-! ### Claim C10 -/

/-- C10: for every question (the empty string included) and every
outcome of the generative routing call (including failure and invalid
output, both folded into the oracle), routeQuestion returns a
RoutingDecision whose target is one of entities, dms, general,
unknown; the embedding is a total function, so no input makes it
throw. -/
theorem C10_route_total (question : Str) (ai : Option ParsedRoute) :
    (routeQuestion question ai).target = RouteTarget.entities ∨
    (routeQuestion question ai).target = RouteTarget.dms ∨
    (routeQuestion question ai).target = RouteTarget.general ∨
    (routeQuestion question ai).target = RouteTarget.unknown := by
  cases h : (routeQuestion question ai).target
  · exact Or.inl rfl
  · exact Or.inr (Or.inl rfl)
  · exact Or.inr (Or.inr (Or.inl rfl))
  · exact Or.inr (Or.inr (Or.inr rfl))
